import Mathlib

set_option maxHeartbeats 1000000

/-!
Shallow embedding of the reba SES mail-forwarding Lambda (src/index.ts) and
proofs about its rule-resolution engine and message-rewrite pipeline.

Modelling conventions:
* JavaScript `RegExp` values held in the configuration (`matchPattern`,
  `rejectPattern`, pattern entries of the reject lists) are modelled as
  abstract Boolean predicates `String → Bool`.
* JavaScript string primitives (`split`, `includes`, `toLowerCase`, `trim`,
  `join`) are modelled on character lists; `toLowerCase` is modelled on the
  ASCII range (addresses and header names in scope are ASCII).
* Thrown exceptions are modelled with `Except String`; the `undefined`
  result of `processMessage` (body veto) is modelled with `Option`.
-/

/-- JavaScript whitespace as matched by the regex class `\s` (the ASCII part
plus NBSP, the Unicode line separators and the BOM; the remaining exotic
Unicode space code points are omitted, none of them occurs in the inputs
considered here). -/
def isJsSpace (c : Char) : Bool :=
  c = ' ' || c = '\t' || c = '\n' || c = '\r' || c = '\x0b' || c = '\x0c' ||
  c = '\u00A0' || c = '\u2028' || c = '\u2029' || c = '\uFEFF'

/-- Characters not matched by `.` in a JavaScript regex without the `s` flag. -/
def isDotExcluded (c : Char) : Bool :=
  c = '\n' || c = '\r' || c = '\u2028' || c = '\u2029'

/-- Model of JavaScript `String.prototype.toLowerCase` on ASCII. -/
def jsToLower (s : String) : String :=
  String.mk (s.toList.map Char.toLower)

/-- Model of JavaScript `s.includes(sub)` (substring test). -/
def strIncludes (s sub : String) : Bool :=
  decide (sub.toList <:+: s.toList)

/-- Model of the JavaScript truthiness test `!s.trim()`: true iff every
character of `s` is whitespace. -/
def jsTrimEmpty (s : String) : Bool :=
  s.toList.all isJsSpace

/-- Model of `line.match(/^\s/)` interpreted as a Boolean. -/
def startsWithSpace (s : String) : Bool :=
  match s.toList with
  | [] => false
  | c :: _ => isJsSpace c

/-- Model of JavaScript `String.prototype.split` with a one-character
separator, on character lists. -/
def splitCharL (sep : Char) : List Char → List (List Char)
  | [] => [[]]
  | c :: cs =>
    match splitCharL sep cs with
    | [] => [[]]
    | g :: gs => if c = sep then [] :: g :: gs else (c :: g) :: gs

/-- `String.prototype.split` with a one-character separator. -/
def jsSplit (sep : Char) (s : String) : List String :=
  (splitCharL sep s.toList).map (fun l => String.mk l)

/-- Model of JavaScript `lines.join(' ')`. -/
def joinSpace : List String → String
  | [] => ""
  | [l] => l
  | l :: ls => l ++ " " ++ joinSpace ls

/-- Model of JavaScript `lines.join('\r\n')`. -/
def joinCRLF : List String → String
  | [] => ""
  | [l] => l
  | l :: ls => l ++ "\r\n" ++ joinCRLF ls

/-- Model of JavaScript `s.split('\r\n')` on character lists: a new segment
starts after each occurrence of the two-character separator CR LF. -/
def splitCRLFL : List Char → List (List Char)
  | [] => [[]]
  | [c] => [[c]]
  | c1 :: c2 :: cs =>
    if c1 = '\r' ∧ c2 = '\n' then [] :: splitCRLFL cs
    else
      match splitCRLFL (c2 :: cs) with
      | [] => [[c1]]
      | g :: gs => (c1 :: g) :: gs

/-- `origMessage.split('\r\n')` from the source. -/
def splitCRLF (s : String) : List String :=
  (splitCRLFL s.toList).map (fun l => String.mk l)

/-- A configuration entry that is either a literal substring or a pattern
(the source stores `string | RegExp`). -/
inductive StrOrPat where
  | str (s : String)
  | pat (p : String → Bool)

/-- One forwarding rule of the configuration (`ConfigRule` in the source).
Optional fields model fields that may be `undefined`. -/
structure Rule where
  matchExact : Option String := none
  matchHost : Option String := none
  matchPattern : Option (String → Bool) := none
  rejectPattern : Option (String → Bool) := none
  rejectUsers : Option (List String) := none
  rejectIfSubjectContains : Option (List StrOrPat) := none
  allowAll : Bool := false
  recipients : List String := []

/-- The `globalRules` section of the configuration. -/
structure GlobalRules where
  rejectIfSubjectContains : Option (List StrOrPat) := none
  rejectIfBodyLineContains : Option (List StrOrPat) := none

/-- JavaScript truthiness of an optional string field: `undefined` and the
empty string are falsy. -/
def truthyOptStr (o : Option String) : Bool :=
  match o with
  | none => false
  | some s => !s.isEmpty

/-- Test of one entry of a subject-reject list against the subject, as in the
source (`typeof rejectItem === 'string' ? subject.includes(...) :
subject.match(...)`). -/
def subjectHit (subject : String) (item : StrOrPat) : Bool :=
  match item with
  | .str s => strIncludes subject s
  | .pat p => p subject

/-- The validity guard of `processRules`: `matchExact || matchHost ||
matchPattern` (a `RegExp` is always truthy). -/
def ruleValid (rule : Rule) : Bool :=
  truthyOptStr rule.matchExact || truthyOptStr rule.matchHost ||
    rule.matchPattern.isSome

/-- `origUser` in `processRules`: the first segment of
`origRecipient.split('@')`. -/
def origUserOf (r : String) : String :=
  (jsSplit '@' r).headD ""

/-- `origHost` in `processRules`: the second segment of
`origRecipient.split('@')`, `undefined` (`none`) when there is none. -/
def origHostOf (r : String) : Option String :=
  (jsSplit '@' r).get? 1

/-- The match part of one rule of `processRules`: each truthy criterion must
accept the recipient. -/
def ruleMatches (rule : Rule) (origRecipient : String) : Bool :=
  (!truthyOptStr rule.matchExact || origRecipient == rule.matchExact.getD "") &&
  (!truthyOptStr rule.matchHost ||
    origHostOf origRecipient == some (rule.matchHost.getD "")) &&
  (match rule.matchPattern with
   | none => true
   | some p => p origRecipient)

/-- The reject part of one matched rule of `processRules`; `allowAll`
bypasses every check, including the global subject list. -/
def ruleRejected (grules : GlobalRules) (subject : String) (rule : Rule)
    (origRecipient : String) : Bool :=
  if rule.allowAll then false
  else
    (rule.rejectUsers.getD []).contains (origUserOf origRecipient) ||
    (match rule.rejectPattern with
     | none => false
     | some p => p origRecipient) ||
    (rule.rejectIfSubjectContains.getD []).any (subjectHit subject) ||
    (grules.rejectIfSubjectContains.getD []).any (subjectHit subject)

/-- The inner rule loop of `processRules` for one original recipient: scan
rules in order, stop at the first valid rule whose match criteria the
recipient satisfies; `none` means the recipient contributes nothing (no rule
matched, or the first matching rule rejected), `some ts` means the matching
rule accepted with targets `ts`. -/
def resolveOne (grules : GlobalRules) (subject : String)
    (origRecipient : String) : List Rule → Option (List String)
  | [] => none
  | rule :: rest =>
    if ruleValid rule then
      if ruleMatches rule origRecipient then
        if ruleRejected grules subject rule origRecipient then none
        else some rule.recipients
      else resolveOne grules subject origRecipient rest
    else resolveOne grules subject origRecipient rest

/-- `if (!newRecipients.includes(a)) newRecipients.push(a)` from the source. -/
def insertAbsent (acc : List String) (a : String) : List String :=
  if acc.contains a then acc else acc ++ [a]

/-- `processRules` from the source: returns the deduplicated new recipients
and `firstOrigRecipient` (the JavaScript `firstOrigRecipient ||
origRecipient` update keeps the first truthy value). -/
def processRules (rules : List Rule) (grules : GlobalRules)
    (origRecipients : List String) (subject : String) : List String × String :=
  origRecipients.foldl
    (fun acc origRecipient =>
      match resolveOne grules subject origRecipient rules with
      | none => acc
      | some aliasRecipients =>
        (aliasRecipients.foldl insertAbsent acc.1,
         if acc.2.isEmpty then origRecipient else acc.2))
    ([], "")

/-- Scanner for the key part of the header regex `^([^\s:]+):\s?(.*)$`: reads
characters of the class `[^\s:]` up to a `:` and returns them with the
remainder after the colon; fails when a whitespace character or the end of
the line is reached first. -/
def keyScan : List Char → Option (List Char × List Char)
  | [] => none
  | c :: cs =>
    if c = ':' then some ([], cs)
    else if isJsSpace c then none
    else
      match keyScan cs with
      | some (k, rest) => some (c :: k, rest)
      | none => none

/-- Scanner for the value part `\s?(.*)$` of the header regex, applied after
the colon: the optional whitespace character is consumed greedily, and `.`
does not match line terminators. -/
def valScan : List Char → Option (List Char)
  | [] => some []
  | c :: tl =>
    if isJsSpace c then
      if tl.all (fun x => !isDotExcluded x) then some tl else none
    else
      if (c :: tl).all (fun x => !isDotExcluded x) then some (c :: tl)
      else none

/-- Model of `headerLine.match(/^([^\s:]+):\s?(.*)$/)`, returning the header
key and value on success. -/
def headerMatch (s : String) : Option (String × String) :=
  match keyScan s.toList with
  | none => none
  | some (k, rest) =>
    if k.isEmpty then none
    else
      match valScan rest with
      | none => none
      | some v => some (String.mk k, String.mk v)

/-- `excludeHeaderPattern = /^(?:Return-Path|Sender|DKIM-Signature)$/i`. -/
def excludedHeader (k : String) : Bool :=
  jsToLower k == "return-path" || jsToLower k == "sender" ||
    jsToLower k == "dkim-signature"

/-- `excludeIfEmptyHeaderPattern = /^(?:Reply-To)$/i`. -/
def excludeIfEmptyHeader (k : String) : Bool :=
  jsToLower k == "reply-to"

/-- `allowDuplicateHeaderPatten = /^(?:Received)$/i`. -/
def allowDuplicateHeader (k : String) : Bool :=
  jsToLower k == "received"

/-- The `from.replace(/"/g, '').replace(/</g, '(').replace(/>/g, ')')` step
of the From rewrite. -/
def sanitizeChar (c : Char) : Option Char :=
  if c = '"' then none
  else if c = '<' then some '('
  else if c = '>' then some ')'
  else some c

/-- Sanitization of the original From value before it is re-quoted. -/
def sanitizeFrom (s : String) : String :=
  String.mk (s.toList.filterMap sanitizeChar)

/-- The mutable state of the line loop of `processMessage`: the condensed
header map (a JavaScript object, modelled as an insertion-ordered
association list on lowercased keys), the output lines, the buffered header
lines, the headers/body mode flag and the captured original From value. -/
structure PMState where
  headers : List (String × String)
  newMessageLines : List String
  currentHeader : List String
  inHeaders : Bool
  origFrom : String
deriving Repr, DecidableEq

/-- The initial state of the loop of `processMessage`. -/
def initState : PMState :=
  { headers := [], newMessageLines := [], currentHeader := [],
    inHeaders := true, origFrom := "" }

/-- Lookup in the condensed header map (`headers[key]`). -/
def getAssoc (m : List (String × String)) (k : String) : Option String :=
  (m.find? (fun p => p.1 == k)).map (fun p => p.2)

/-- Assignment `headers[key] = value` on the association list. -/
def setAssoc (m : List (String × String)) (k v : String) :
    List (String × String) :=
  if (m.find? (fun p => p.1 == k)).isSome then
    m.map (fun p => if p.1 == k then (k, v) else p)
  else m ++ [(k, v)]

/-- The rewritten From value `"<sanitized origFrom>" <firstOrigRecipient>`. -/
def fromValue (r v : String) : String :=
  "\"" ++ sanitizeFrom v ++ "\" <" ++ r ++ ">"

/-- The processing of a buffered header in `processMessage` (the
`currentHeader.length > 0` block): join the buffered lines, parse them with
the header regex, then drop excluded, empty-excluded and duplicate headers,
rewrite the From header (capturing `origFrom` and emitting `fromValue`),
and append the kept lines to the output. -/
def flushHeader (firstOrigRecipient : String) (s : PMState) :
    Except String PMState :=
  if s.currentHeader.isEmpty then .ok s
  else
    match headerMatch (joinSpace s.currentHeader) with
    | none =>
      .error ("Failed to parse message header:\n" ++ joinSpace s.currentHeader)
    | some kv =>
      if excludedHeader kv.1 then
        .ok { s with currentHeader := [] }
      else if excludeIfEmptyHeader kv.1 && jsTrimEmpty kv.2 then
        .ok { s with currentHeader := [] }
      else if (getAssoc s.headers (jsToLower kv.1)).isSome &&
          !allowDuplicateHeader kv.1 then
        .ok { s with currentHeader := [] }
      else if jsToLower kv.1 == "from" then
        .ok { headers :=
                setAssoc s.headers (jsToLower kv.1)
                  (fromValue firstOrigRecipient kv.2),
              newMessageLines :=
                s.newMessageLines ++
                  [kv.1 ++ ": " ++ fromValue firstOrigRecipient kv.2],
              currentHeader := [],
              inHeaders := s.inHeaders,
              origFrom := kv.2 }
      else
        .ok { s with
              headers := setAssoc s.headers (jsToLower kv.1) kv.2,
              newMessageLines := s.newMessageLines ++ s.currentHeader,
              currentHeader := [] }

/-- The Reply-To injection step at the end of the header block: keep a
truthy condensed `reply-to` entry as is, otherwise inject the captured
original From value when truthy, otherwise nothing. -/
def replyToInjection (s : PMState) : List String :=
  if ((getAssoc s.headers "reply-to").getD "").isEmpty then
    if s.origFrom.isEmpty then [] else ["Reply-To: " ++ s.origFrom]
  else []

/-- The body filter applied to one body line: `typeof rejectPattern ===
'string' ? line.includes(...) : line.match(...)` over the global
`rejectIfBodyLineContains` list. -/
def lineRejected (pats : List StrOrPat) (line : String) : Bool :=
  pats.any (fun p =>
    match p with
    | .str s => strIncludes line s
    | .pat f => f line)

/-- One iteration of the line loop of `processMessage`. `.ok none` models
the `return undefined` of the body veto. The source's guard `if
(!currentHeader) throw new Error('Message started with space')` is
unreachable — `currentHeader` is always an array and every array is truthy
in JavaScript — so a leading continuation line is simply buffered. -/
def processLine (pats : List StrOrPat) (firstOrigRecipient : String)
    (s : PMState) (line : String) : Except String (Option PMState) :=
  if s.inHeaders then
    if startsWithSpace line then
      .ok (some { s with currentHeader := s.currentHeader ++ [line] })
    else
      match flushHeader firstOrigRecipient s with
      | .error e => .error e
      | .ok s1 =>
        if line == "" then
          if s1.headers.isEmpty then
            .error "Message had no headers (started with blank line)"
          else
            .ok (some { s1 with
              inHeaders := false,
              newMessageLines :=
                s1.newMessageLines ++ replyToInjection s1 ++ [line] })
        else
          .ok (some { s1 with currentHeader := [line] })
  else
    if lineRejected pats line then .ok none
    else .ok (some { s with newMessageLines := s.newMessageLines ++ [line] })

/-- The line loop of `processMessage` over the CRLF-split lines. -/
def runLines (pats : List StrOrPat) (firstOrigRecipient : String) :
    List String → PMState → Except String (Option PMState)
  | [], s => .ok (some s)
  | line :: rest, s =>
    match processLine pats firstOrigRecipient s line with
    | .error e => .error e
    | .ok none => .ok none
    | .ok (some s1) => runLines pats firstOrigRecipient rest s1

/-- `processMessage` from the source: split the raw message on CRLF, run the
line loop, and join the produced lines; `.ok none` is the body veto
(`undefined`), `.error` a thrown malformed-message error. -/
def processMessage (origMessage : String) (firstOrigRecipient : String)
    (pats : List StrOrPat) : Except String (Option String) :=
  match runLines pats firstOrigRecipient (splitCRLF origMessage) initState with
  | .error e => .error e
  | .ok none => .ok none
  | .ok (some s) => .ok (some (joinCRLF s.newMessageLines))

/-- The `mail` part of an SES record, restricted to the fields the handler
reads (`messageId` selects the S3 object, `commonHeaders.subject` feeds the
subject reject checks and may be absent). -/
structure SESMailM where
  messageId : String
  subject : Option String
deriving Repr, DecidableEq

/-- One SES event record; `recipients` models `ses.receipt.recipients`,
which may be absent. The object-shape checks of `validateSesEvent`
(`typeof record === 'object'` and the like) hold by construction in this
typed model. -/
structure SESRecordM where
  eventSource : String
  eventVersion : String
  mail : SESMailM
  recipients : Option (List String)
deriving Repr, DecidableEq

/-- The Lambda event: a list of records. -/
structure SESEventM where
  records : List SESRecordM
deriving Repr, DecidableEq

/-- `validateSesEvent` from the source: exactly one record with the expected
discriminators (the source interpolates the offending values into its error
messages; the texts here are abbreviated, which no claim depends on). -/
def validateSesEvent (event : SESEventM) : Except String SESRecordM :=
  match event.records with
  | [record] =>
    if record.eventSource != "aws:ses" then
      .error "Record has unexpected eventSource; expected aws:ses"
    else if record.eventVersion != "1.0" then
      .error "Record has unexpected eventVersion; expected 1.0"
    else .ok record
  | _ => .error "Event Records array has unexpected length; expected 1"

/-- `parseRecord` from the source: requires a non-empty recipients array and
lowercases every recipient. -/
def parseRecord (record : SESRecordM) :
    Except String (SESMailM × List String) :=
  match record.recipients with
  | none => .error "Record did not contain recipients"
  | some rs =>
    if rs.isEmpty then .error "Record did not contain recipients"
    else .ok (record.mail, rs.map jsToLower)

/-- The two outward dispositions of the handler. -/
inductive Disposition where
  | CONTINUE
  | STOP_RULE
deriving Repr, DecidableEq

/-- The handler's observable outcome: the disposition returned to SES,
whether the transport (`sendRawEmail`) was invoked, and whether the
operator was notified (`reportError`). -/
structure HandlerOutcome where
  disposition : Disposition
  transportInvoked : Bool
  operatorNotified : Bool
deriving Repr, DecidableEq

/-- The `try` block of the handler. The S3 fetch and the SES send are
external collaborators, modelled by their outcomes `fetchRes` (the result
of `fetchMessage`) and `forwardErr` (`some e` when `sendRawEmail` fails).
An `.error` carries the flag recording whether the transport had been
invoked before the failure. -/
def tryBody (rules : List Rule) (grules : GlobalRules)
    (fetchRes : Except String String) (forwardErr : Option String)
    (record : SESRecordM) : Except (String × Bool) (Disposition × Bool) :=
  match parseRecord record with
  | .error e => .error (e, false)
  | .ok mailRecips =>
    let pr := processRules rules grules mailRecips.2
      (mailRecips.1.subject.getD "")
    if pr.1.isEmpty then .ok (.CONTINUE, false)
    else
      match fetchRes with
      | .error e => .error (e, false)
      | .ok origMessage =>
        match processMessage origMessage pr.2
            (grules.rejectIfBodyLineContains.getD []) with
        | .error e => .error (e, false)
        | .ok none => .ok (.CONTINUE, false)
        | .ok (some _) =>
          match forwardErr with
          | some e => .error (e, true)
          | none => .ok (.STOP_RULE, true)

/-- The exported handler: envelope validation failures propagate to the
caller; every error inside the `try` block is caught, reported to the
operator and swallowed, and the handler then returns `STOP_RULE`. -/
def handler (rules : List Rule) (grules : GlobalRules) (event : SESEventM)
    (fetchRes : Except String String) (forwardErr : Option String) :
    Except String HandlerOutcome :=
  match validateSesEvent event with
  | .error e => .error e
  | .ok record =>
    match tryBody rules grules fetchRes forwardErr record with
    | .ok dInv => .ok ⟨dInv.1, dInv.2, false⟩
    | .error eInv => .ok ⟨.STOP_RULE, eInv.2, true⟩

/-- First-occurrence deduplication with an explicit seen accumulator: an
element is kept iff it is not already in `seen`; kept elements stay in
order of first occurrence. -/
def fsdAux (seen : List String) : List String → List String
  | [] => []
  | a :: l => if seen.contains a then fsdAux seen l else a :: fsdAux (seen ++ [a]) l

/-- Specification-level first-seen deduplication: each element appears
exactly once, at the position of its first occurrence. -/
def firstSeenDedup (l : List String) : List String :=
  fsdAux [] l

/-- Specification-level local part of an address: the characters before the
first `@`, the entire string when there is no `@`. -/
def specLocalPart (r : String) : String :=
  String.mk (r.toList.takeWhile (fun c => c != '@'))

lemma strToList_append (s t : String) : (s ++ t).toList = s.toList ++ t.toList :=
  String.data_append s t

lemma strMk_toList (s : String) : String.mk s.toList = s := rfl

lemma splitCharL_ne_nil (sep : Char) : ∀ l : List Char, splitCharL sep l ≠ []
  | [] => by simp [splitCharL]
  | c :: cs => by
    have ih := splitCharL_ne_nil sep cs
    cases h : splitCharL sep cs with
    | nil => exact absurd h ih
    | cons g gs =>
      simp only [splitCharL, h]
      split <;> simp

lemma splitCharL_head (sep : Char) :
    ∀ l : List Char, (splitCharL sep l).headD [] = l.takeWhile (fun c => c != sep)
  | [] => by simp [splitCharL]
  | c :: cs => by
    have ih := splitCharL_head sep cs
    cases h : splitCharL sep cs with
    | nil => exact absurd h (splitCharL_ne_nil sep cs)
    | cons g gs =>
      rw [h] at ih
      simp only [List.headD_cons] at ih
      by_cases hc : c = sep
      · simp [splitCharL, h, hc]
      · simp [splitCharL, h, hc, List.takeWhile_cons, ih]

lemma splitCharL_no_sep (sep : Char) :
    ∀ l : List Char, sep ∉ l → splitCharL sep l = [l]
  | [] => by simp [splitCharL]
  | c :: cs => by
    intro hmem
    have ih := splitCharL_no_sep sep cs (fun h => hmem (List.mem_cons_of_mem c h))
    have hc : c ≠ sep := fun h => hmem (h ▸ List.mem_cons_self c cs)
    simp [splitCharL, ih, hc]

lemma splitCharL_append_sep (sep : Char) :
    ∀ a rest : List Char, sep ∉ a →
      splitCharL sep (a ++ sep :: rest) = a :: splitCharL sep rest
  | [], rest => by
    intro _
    cases h : splitCharL sep rest with
    | nil => exact absurd h (splitCharL_ne_nil sep rest)
    | cons g gs => simp [splitCharL, h]
  | c :: a, rest => by
    intro hmem
    have ih := splitCharL_append_sep sep a rest
      (fun h => hmem (List.mem_cons_of_mem c h))
    have hc : c ≠ sep := fun h => hmem (h ▸ List.mem_cons_self c a)
    simp only [List.cons_append, splitCharL, List.append_eq]
    rw [ih]
    simp [hc]

lemma origUserOf_eq_specLocalPart (r : String) : origUserOf r = specLocalPart r := by
  unfold origUserOf specLocalPart jsSplit
  cases h : splitCharL '@' r.toList with
  | nil => exact absurd h (splitCharL_ne_nil '@' r.toList)
  | cons g gs =>
    have := splitCharL_head '@' r.toList
    rw [h] at this
    simp only [List.headD_cons] at this
    simp [this]

lemma origHostOf_no_at (r : String) (h : '@' ∉ r.toList) : origHostOf r = none := by
  unfold origHostOf jsSplit
  rw [splitCharL_no_sep '@' r.toList h]
  rfl

lemma origHostOf_two_at (a b c : String) (ha : '@' ∉ a.toList)
    (hb : '@' ∉ b.toList) : origHostOf (a ++ "@" ++ b ++ "@" ++ c) = some b := by
  have hsplit : (a ++ "@" ++ b ++ "@" ++ c).toList
      = a.toList ++ '@' :: (b.toList ++ '@' :: c.toList) := by
    simp [strToList_append]
  unfold origHostOf jsSplit
  rw [hsplit, splitCharL_append_sep '@' _ _ ha,
    splitCharL_append_sep '@' _ _ hb]
  simp [strMk_toList]

/-- C10: rule resolution splits a recipient on `@`: the local part tested
against `rejectUsers` is the substring before the first `@` (the whole
string when there is no `@`); the host compared with `matchHost` is the
segment between the first and the second `@`, so a recipient without `@`
never satisfies a `matchHost` rule, and a recipient with several `@` is
compared on the middle segment, not on everything after the first `@`. -/
theorem c10_address_split :
    (∀ r : String, origUserOf r = specLocalPart r) ∧
    (∀ (grules : GlobalRules) (subject : String) (rule : Rule) (r : String)
        (us : List String),
      rule.allowAll = false → rule.rejectPattern = none →
      rule.rejectIfSubjectContains = none →
      grules.rejectIfSubjectContains = none →
      rule.rejectUsers = some us →
      ruleRejected grules subject rule r = us.contains (specLocalPart r)) ∧
    (∀ (rule : Rule) (r : String), truthyOptStr rule.matchHost = true →
      '@' ∉ r.toList → ruleMatches rule r = false) ∧
    (∀ (a b c hst : String) (rule : Rule), '@' ∉ a.toList → '@' ∉ b.toList →
      rule.matchExact = none → rule.matchPattern = none →
      rule.matchHost = some hst → hst ≠ "" →
      origHostOf (a ++ "@" ++ b ++ "@" ++ c) = some b ∧
      ruleMatches rule (a ++ "@" ++ b ++ "@" ++ c) = (b == hst)) := by
  refine ⟨origUserOf_eq_specLocalPart, ?_, ?_, ?_⟩
  · intro grules subject rule r us hAllow hPat hSubj hGSubj hUsers
    unfold ruleRejected
    rw [origUserOf_eq_specLocalPart]
    simp [hAllow, hPat, hSubj, hGSubj, hUsers]
  · intro rule r htruthy hat
    unfold ruleMatches
    rw [origHostOf_no_at r hat]
    simp [htruthy]
  · intro a b c hst rule ha hb hExact hPat hHost hne
    have hhost := origHostOf_two_at a b c ha hb
    refine ⟨hhost, ?_⟩
    unfold ruleMatches
    rw [hhost]
    have hie : hst.isEmpty = false := by
      rw [← Bool.not_eq_true, String.isEmpty_iff]
      exact hne
    simp [hExact, hPat, hHost, truthyOptStr, hie]

/-- Witness for C10 at concrete inputs: the rejected local part of
`bad@yourdomain.com` is `bad`; `nobody` (no `@`) never matches a host rule;
`a@b.com@evil.com` is compared on the middle segment `b.com`. -/
theorem c10_witness :
    (ruleRejected {} ""
        ({ matchHost := some "yourdomain.com", rejectUsers := some ["bad"],
           recipients := ["t@x"] } : Rule) "bad@yourdomain.com"
      = ["bad"].contains (specLocalPart "bad@yourdomain.com") ∧
      specLocalPart "bad@yourdomain.com" = "bad") ∧
    ('@' ∉ "nobody".toList ∧
      ruleMatches ({ matchHost := some "d.com", recipients := ["t@x"] } : Rule)
        "nobody" = false) ∧
    (origHostOf ("a" ++ "@" ++ "b.com" ++ "@" ++ "evil.com") = some "b.com" ∧
      ruleMatches ({ matchHost := some "d.com", recipients := ["t@x"] } : Rule)
        ("a" ++ "@" ++ "b.com" ++ "@" ++ "evil.com") = ("b.com" == "d.com")) := by
  refine ⟨⟨c10_address_split.2.1 {} "" _ _ ["bad"] rfl rfl rfl rfl rfl, by decide⟩,
    ⟨by decide, c10_address_split.2.2.1 _ _ (by decide) (by decide)⟩,
    c10_address_split.2.2.2 "a" "b.com" "evil.com" "d.com" _
      (by decide) (by decide) rfl rfl rfl (by decide)⟩

lemma resolveOne_append_skip (grules : GlobalRules) (subject r : String) :
    ∀ (pre rest : List Rule),
      (∀ p ∈ pre, ruleValid p = false ∨ ruleMatches p r = false) →
      resolveOne grules subject r (pre ++ rest) = resolveOne grules subject r rest
  | [], rest => by intro _; rfl
  | q :: pre, rest => by
    intro hpre
    have ih := resolveOne_append_skip grules subject r pre rest
      (fun p hp => hpre p (List.mem_cons_of_mem q hp))
    rcases hpre q (List.mem_cons_self q pre) with h | h <;>
      simp [resolveOne, h, ih]

/-- C1: rules are scanned in declaration order and the first valid rule whose
match criteria the recipient satisfies decides the outcome: the result is
that rule's accept/reject decision, it does not depend on the rules behind
it, and a matched-and-rejected recipient contributes nothing to
`processRules` even when a later rule would match and accept it. -/
theorem c1_first_match_wins (grules : GlobalRules) (subject r : String)
    (pre post : List Rule) (rule : Rule)
    (hpre : ∀ p ∈ pre, ruleValid p = false ∨ ruleMatches p r = false)
    (hvalid : ruleValid rule = true) (hmatch : ruleMatches rule r = true) :
    (resolveOne grules subject r (pre ++ rule :: post) =
      if ruleRejected grules subject rule r then none
      else some rule.recipients) ∧
    (∀ post2 : List Rule, resolveOne grules subject r (pre ++ rule :: post2)
      = resolveOne grules subject r (pre ++ rule :: post)) ∧
    (ruleRejected grules subject rule r = true →
      ∀ preR postR : List String,
        processRules (pre ++ rule :: post) grules (preR ++ r :: postR) subject
          = processRules (pre ++ rule :: post) grules (preR ++ postR) subject) := by
  have hone : ∀ post1 : List Rule,
      resolveOne grules subject r (pre ++ rule :: post1) =
        if ruleRejected grules subject rule r then none
        else some rule.recipients := by
    intro post1
    rw [resolveOne_append_skip grules subject r pre _ hpre]
    simp [resolveOne, hvalid, hmatch]
  refine ⟨hone post, fun post2 => (hone post2).trans (hone post).symm, ?_⟩
  intro hrej preR postR
  have hnone : resolveOne grules subject r (pre ++ rule :: post) = none := by
    rw [hone post, hrej]
    rfl
  unfold processRules
  rw [List.foldl_append, List.foldl_append, List.foldl_cons, hnone]

/-- A rule that matches host `d.com` but rejects local part `bad`. -/
def c1Rule : Rule :=
  { matchHost := some "d.com", rejectUsers := some ["bad"],
    recipients := ["r1@x"] }

/-- A later rule that would match and accept every `d.com` recipient. -/
def c1Later : Rule :=
  { matchHost := some "d.com", recipients := ["r2@x"] }

/-- Witness for C1: `bad@d.com` is matched and rejected by the first rule,
resolves to no targets although the later rule would accept it, and
contributes nothing to `processRules`. -/
theorem c1_witness :
    ruleValid c1Rule = true ∧
    ruleMatches c1Rule "bad@d.com" = true ∧
    ruleRejected {} "" c1Rule "bad@d.com" = true ∧
    ruleMatches c1Later "bad@d.com" = true ∧
    ruleRejected {} "" c1Later "bad@d.com" = false ∧
    resolveOne {} "" "bad@d.com" ([] ++ c1Rule :: [c1Later]) = none ∧
    processRules ([] ++ c1Rule :: [c1Later]) {}
        ([] ++ "bad@d.com" :: ["ok@d.com"]) ""
      = processRules ([] ++ c1Rule :: [c1Later]) {} ([] ++ ["ok@d.com"]) "" := by
  have h := c1_first_match_wins {} "" "bad@d.com" [] [c1Later] c1Rule
    (by simp) (by decide) (by decide)
  refine ⟨by decide, by decide, by decide, by decide, by decide, ?_, ?_⟩
  · rw [h.1]
    decide
  · exact h.2.2 (by decide) [] ["ok@d.com"]

lemma foldl_insertAbsent : ∀ (l acc : List String),
    l.foldl insertAbsent acc = acc ++ fsdAux acc l
  | [], acc => by simp [fsdAux]
  | a :: l, acc => by
    by_cases h : a ∈ acc
    · have ih := foldl_insertAbsent l acc
      simp [List.foldl_cons, insertAbsent, h, fsdAux, ih]
    · have ih := foldl_insertAbsent l (acc ++ [a])
      simp [List.foldl_cons, insertAbsent, h, fsdAux, ih]

lemma mem_fsdAux : ∀ (l seen : List String) (b : String),
    b ∈ fsdAux seen l → b ∈ l ∧ b ∉ seen
  | [], seen, b => by simp [fsdAux]
  | a :: l, seen, b => by
    intro hmem
    by_cases h : a ∈ seen
    · rw [fsdAux, if_pos (List.elem_iff.mpr h)] at hmem
      have := mem_fsdAux l seen b hmem
      exact ⟨List.mem_cons_of_mem a this.1, this.2⟩
    · rw [fsdAux, if_neg (fun ht => h (List.elem_iff.mp ht))] at hmem
      rcases List.mem_cons.mp hmem with rfl | hmem2
      · exact ⟨List.mem_cons_self _ _, h⟩
      · have := mem_fsdAux l (seen ++ [a]) b hmem2
        refine ⟨List.mem_cons_of_mem a this.1, fun hb => this.2 ?_⟩
        exact List.mem_append_left [a] hb

lemma fsdAux_nodup : ∀ (l seen : List String), (fsdAux seen l).Nodup
  | [], seen => by simp [fsdAux]
  | a :: l, seen => by
    by_cases h : a ∈ seen
    · rw [fsdAux, if_pos (List.elem_iff.mpr h)]
      exact fsdAux_nodup l seen
    · rw [fsdAux, if_neg (fun ht => h (List.elem_iff.mp ht))]
      refine List.nodup_cons.mpr ⟨?_, fsdAux_nodup l (seen ++ [a])⟩
      intro hmem
      have := (mem_fsdAux l (seen ++ [a]) a hmem).2
      simp at this

lemma processRules_fold_fst (rules : List Rule) (grules : GlobalRules)
    (subject : String) : ∀ (recips : List String) (acc : List String × String),
    (recips.foldl (fun acc2 origRecipient =>
        match resolveOne grules subject origRecipient rules with
        | none => acc2
        | some aliasRecipients =>
          (aliasRecipients.foldl insertAbsent acc2.1,
           if acc2.2.isEmpty then origRecipient else acc2.2)) acc).1
      = ((recips.map
          (fun r => (resolveOne grules subject r rules).getD [])).flatten).foldl
            insertAbsent acc.1
  | [], acc => by simp
  | r :: recips, acc => by
    have ih := processRules_fold_fst rules grules subject recips
    cases hres : resolveOne grules subject r rules with
    | none => simp [List.foldl_cons, hres, ih]
    | some ts => simp [List.foldl_cons, hres, ih, List.foldl_append]

/-- C7: the resolved target list is exactly the first-seen deduplication of
the concatenation of the target lists contributed by the recipients, so
every target appears exactly once, at the position of its first addition
(string equality, hence case-sensitive); in particular the output has no
duplicates. -/
theorem c7_dedup_targets (rules : List Rule) (grules : GlobalRules)
    (recips : List String) (subject : String) :
    (processRules rules grules recips subject).1
      = firstSeenDedup ((recips.map
          (fun r => (resolveOne grules subject r rules).getD [])).flatten) ∧
    (processRules rules grules recips subject).1.Nodup := by
  have h := processRules_fold_fst rules grules subject recips ([], "")
  have h2 : (processRules rules grules recips subject).1
      = firstSeenDedup ((recips.map
          (fun r => (resolveOne grules subject r rules).getD [])).flatten) := by
    unfold processRules
    rw [h, foldl_insertAbsent]
    rfl
  exact ⟨h2, h2 ▸ fsdAux_nodup _ _⟩

lemma processRules_fold_snd_stay (rules : List Rule) (grules : GlobalRules)
    (subject : String) : ∀ (recips : List String) (acc : List String × String),
    acc.2 ≠ "" →
    (recips.foldl (fun acc2 origRecipient =>
        match resolveOne grules subject origRecipient rules with
        | none => acc2
        | some aliasRecipients =>
          (aliasRecipients.foldl insertAbsent acc2.1,
           if acc2.2.isEmpty then origRecipient else acc2.2)) acc).2 = acc.2
  | [], acc => by intro _; rfl
  | r :: recips, acc => by
    intro hne
    have hie : acc.2.isEmpty = false := by
      rw [← Bool.not_eq_true, String.isEmpty_iff]
      exact hne
    cases hres : resolveOne grules subject r rules with
    | none =>
      simpa [List.foldl_cons, hres] using
        processRules_fold_snd_stay rules grules subject recips acc hne
    | some ts =>
      simpa [List.foldl_cons, hres, hie] using
        processRules_fold_snd_stay rules grules subject recips
          (ts.foldl insertAbsent acc.1, acc.2) hne

lemma processRules_fold_snd (rules : List Rule) (grules : GlobalRules)
    (subject : String) : ∀ (recips : List String) (acc : List String × String),
    acc.2 = "" → (∀ x ∈ recips, x ≠ "") →
    (recips.foldl (fun acc2 origRecipient =>
        match resolveOne grules subject origRecipient rules with
        | none => acc2
        | some aliasRecipients =>
          (aliasRecipients.foldl insertAbsent acc2.1,
           if acc2.2.isEmpty then origRecipient else acc2.2)) acc).2
      = (recips.find? (fun x =>
          (resolveOne grules subject x rules).isSome)).getD ""
  | [], acc => by intro h _; simpa using h
  | r :: recips, acc => by
    intro hacc hr
    cases hres : resolveOne grules subject r rules with
    | none =>
      have ih := processRules_fold_snd rules grules subject recips acc hacc
        (fun x hx => hr x (List.mem_cons_of_mem r hx))
      simp [List.foldl_cons, hres, List.find?_cons, ih]
    | some ts =>
      have hrne : r ≠ "" := hr r (List.mem_cons_self r recips)
      have hstay := processRules_fold_snd_stay rules grules subject recips
        (ts.foldl insertAbsent acc.1, r) hrne
      simp [List.foldl_cons, hres, List.find?_cons, hacc,
        show ("" : String).isEmpty = true from rfl, hstay]

lemma resolveOne_mem (grules : GlobalRules) (subject r : String) :
    ∀ (rules : List Rule) (ts : List String),
      resolveOne grules subject r rules = some ts →
      ∃ rule ∈ rules, ts = rule.recipients
  | [], ts => by simp [resolveOne]
  | rule :: rest, ts => by
    intro h
    by_cases hv : ruleValid rule = true
    · by_cases hm : ruleMatches rule r = true
      · by_cases hj : ruleRejected grules subject rule r = true
        · simp [resolveOne, hv, hm, hj] at h
        · simp only [resolveOne, hv, hm, hj, if_pos, if_neg,
            Bool.false_eq_true, not_false_iff, if_true, Option.some.injEq] at h
          exact ⟨rule, List.mem_cons_self _ _, h.symm⟩
      · rw [Bool.not_eq_true] at hm
        simp only [resolveOne, hv, hm, Bool.false_eq_true, if_true,
          if_false] at h
        obtain ⟨q, hq, hts⟩ := resolveOne_mem grules subject r rest ts h
        exact ⟨q, List.mem_cons_of_mem rule hq, hts⟩
    · rw [Bool.not_eq_true] at hv
      simp only [resolveOne, hv, Bool.false_eq_true, if_false] at h
      obtain ⟨q, hq, hts⟩ := resolveOne_mem grules subject r rest ts h
      exact ⟨q, List.mem_cons_of_mem rule hq, hts⟩

lemma find?_eq_of_agree : ∀ (l : List String) (p q : String → Bool),
    (∀ x ∈ l, p x = q x) → l.find? p = l.find? q
  | [], p, q => by intro _; rfl
  | a :: l, p, q => by
    intro h
    have ha := h a (List.mem_cons_self a l)
    have ih := find?_eq_of_agree l p q (fun x hx => h x (List.mem_cons_of_mem a hx))
    simp only [List.find?_cons, ha, ih]

/-- The rule of the C6 scenario: matches host `yourdomain.com`, rejects
local part `bad`, forwards to one team address. -/
def c6Rule : Rule :=
  { matchHost := some "yourdomain.com", rejectUsers := some ["bad"],
    recipients := ["you@yourteam.awsapps.com"] }

/-- C6: the primary recipient is the first original recipient for which a
rule matched without rejecting — equivalently (under the configuration
invariant that every rule has a non-empty target list) the first recipient
that resolved to a non-empty, non-rejected target set — and it is `""` when
no recipient resolves; and the concrete scenario of the claim. -/
theorem c6_primary_recipient (rules : List Rule) (grules : GlobalRules)
    (recips : List String) (subject : String)
    (hr : ∀ x ∈ recips, x ≠ "")
    (hrules : ∀ rule ∈ rules, rule.recipients ≠ []) :
    (processRules rules grules recips subject).2
      = (recips.find? (fun x =>
          match resolveOne grules subject x rules with
          | some ts => !ts.isEmpty
          | none => false)).getD "" ∧
    processRules [c6Rule] {} ["bad@yourdomain.com", "ok@yourdomain.com"] ""
      = (["you@yourteam.awsapps.com"], "ok@yourdomain.com") := by
  refine ⟨?_, by decide⟩
  unfold processRules
  rw [processRules_fold_snd rules grules subject recips ([], "") rfl hr]
  have hagree : ∀ x ∈ recips,
      ((resolveOne grules subject x rules).isSome : Bool)
        = (match resolveOne grules subject x rules with
           | some ts => !ts.isEmpty
           | none => false) := by
    intro x _
    cases hres : resolveOne grules subject x rules with
    | none => rfl
    | some ts =>
      obtain ⟨rule, hrule, hts⟩ := resolveOne_mem grules subject x rules ts hres
      have : ts.isEmpty = false := by
        rw [← Bool.not_eq_true, List.isEmpty_iff]
        exact hts ▸ hrules rule hrule
      simp [this]
  rw [find?_eq_of_agree recips _ _ hagree]

/-- Witness for C6 at the scenario input of the claim: the primary
recipient characterization evaluated on
`["bad@yourdomain.com", "ok@yourdomain.com"]` gives `ok@yourdomain.com`. -/
theorem c6_witness :
    (processRules [c6Rule] {} ["bad@yourdomain.com", "ok@yourdomain.com"] "").2
      = (["bad@yourdomain.com", "ok@yourdomain.com"].find? (fun x =>
          match resolveOne {} "" x [c6Rule] with
          | some ts => !ts.isEmpty
          | none => false)).getD "" ∧
    (["bad@yourdomain.com", "ok@yourdomain.com"].find? (fun x =>
        match resolveOne {} "" x [c6Rule] with
        | some ts => !ts.isEmpty
        | none => false)).getD "" = "ok@yourdomain.com" := by
  refine ⟨(c6_primary_recipient [c6Rule] {}
    ["bad@yourdomain.com", "ok@yourdomain.com"] ""
    (by decide) (by decide)).1, by decide⟩

lemma processRules_fold_snd_mem (rules : List Rule) (grules : GlobalRules)
    (subject : String) : ∀ (recips : List String) (acc : List String × String),
    (recips.foldl (fun acc2 origRecipient =>
        match resolveOne grules subject origRecipient rules with
        | none => acc2
        | some aliasRecipients =>
          (aliasRecipients.foldl insertAbsent acc2.1,
           if acc2.2.isEmpty then origRecipient else acc2.2)) acc).2 = acc.2 ∨
    (recips.foldl (fun acc2 origRecipient =>
        match resolveOne grules subject origRecipient rules with
        | none => acc2
        | some aliasRecipients =>
          (aliasRecipients.foldl insertAbsent acc2.1,
           if acc2.2.isEmpty then origRecipient else acc2.2)) acc).2 ∈ recips
  | [], acc => Or.inl rfl
  | r :: recips, acc => by
    cases hres : resolveOne grules subject r rules with
    | none =>
      rcases processRules_fold_snd_mem rules grules subject recips acc with h | h
      · exact Or.inl (by simpa [List.foldl_cons, hres] using h)
      · exact Or.inr (by simpa [List.foldl_cons, hres] using
          List.mem_cons_of_mem r h)
    | some ts =>
      rcases processRules_fold_snd_mem rules grules subject recips
          (ts.foldl insertAbsent acc.1,
           if acc.2.isEmpty then r else acc.2) with h | h
      · by_cases hie : acc.2.isEmpty = true
        · refine Or.inr ?_
          simp only [List.foldl_cons, hres]
          rw [h]
          simp [hie]
        · refine Or.inl ?_
          simp only [List.foldl_cons, hres]
          rw [h]
          simp [hie]
      · exact Or.inr (by simpa [List.foldl_cons, hres] using
          List.mem_cons_of_mem r h)

/-- C9: `parseRecord` lowercases every recipient before rule resolution, so
resolution is invariant under case changes of the inbound recipient
addresses, and the primary recipient is always the lowercased form of one
of the original recipients (or empty). -/
theorem c9_lowercase_recipients :
    (∀ (record : SESRecordM) (rs : List String),
      record.recipients = some rs → rs ≠ [] →
      parseRecord record = .ok (record.mail, rs.map jsToLower)) ∧
    (∀ (rules : List Rule) (grules : GlobalRules) (subject : String)
        (rs1 rs2 : List String), rs1.map jsToLower = rs2.map jsToLower →
      processRules rules grules (rs1.map jsToLower) subject
        = processRules rules grules (rs2.map jsToLower) subject) ∧
    (∀ (rules : List Rule) (grules : GlobalRules) (subject : String)
        (rs : List String),
      (processRules rules grules (rs.map jsToLower) subject).2 = "" ∨
      ∃ x ∈ rs, (processRules rules grules (rs.map jsToLower) subject).2
        = jsToLower x) := by
  refine ⟨?_, ?_, ?_⟩
  · intro record rs hrec hne
    unfold parseRecord
    rw [hrec]
    have : rs.isEmpty = false := by
      rw [← Bool.not_eq_true, List.isEmpty_iff]
      exact hne
    simp [this]
  · intro rules grules subject rs1 rs2 h
    rw [h]
  · intro rules grules subject rs
    rcases processRules_fold_snd_mem rules grules subject
        (rs.map jsToLower) ([], "") with h | h
    · exact Or.inl h
    · rcases List.mem_map.mp h with ⟨x, hx, hxe⟩
      exact Or.inr ⟨x, hx, hxe.symm⟩

/-- The record of the C9 witness. -/
def c9Record : SESRecordM :=
  { eventSource := "aws:ses", eventVersion := "1.0",
    mail := { messageId := "m1", subject := none },
    recipients := some ["Mixed@Case.COM"] }

/-- Witness for C9: a mixed-case inbound recipient is lowercased by
`parseRecord`. -/
theorem c9_witness :
    c9Record.recipients = some ["Mixed@Case.COM"] ∧
    ["Mixed@Case.COM"] ≠ ([] : List String) ∧
    parseRecord c9Record = .ok (c9Record.mail, ["Mixed@Case.COM"].map jsToLower) ∧
    ["Mixed@Case.COM"].map jsToLower = ["mixed@case.com"] := by
  exact ⟨rfl, by decide,
    c9_lowercase_recipients.1 c9Record ["Mixed@Case.COM"] rfl (by decide),
    by decide⟩

/-- A well-formed header value: contains no line terminators, so the header
regex value part `(.*)$` can match it. -/
def wfValStr (s : String) : Bool :=
  s.toList.all (fun c => !isDotExcluded c)

/-- A well-formed header key: non-empty and made of characters of the class
`[^\s:]`. -/
def wfKeyStr (k : String) : Bool :=
  !k.toList.isEmpty && k.toList.all (fun c => !isJsSpace c && c != ':')

/-- A well-formed (key, value) header pair. -/
def wfHeaderKV (kv : String × String) : Bool :=
  wfKeyStr kv.1 && wfValStr kv.2

/-- A body line free of CR and LF, so CRLF joining and splitting invert. -/
def wfBodyLine (l : String) : Bool :=
  l.toList.all (fun c => c != '\r' && c != '\n')

/-- The wire form `key: value` of a header pair. -/
def hline (kv : String × String) : String :=
  kv.1 ++ ": " ++ kv.2

/-- A raw CRLF message assembled from simple single-line headers, the blank
separator and body lines. -/
def mkMessage (hs : List (String × String)) (body : List String) : String :=
  joinCRLF (hs.map hline ++ "" :: body)

/-- A header that the rewrite pipeline keeps when the header map is still
empty: not excluded and not a blank Reply-To (a duplicate drop needs a
previously stored header). -/
def keptHeader (kv : String × String) : Bool :=
  !excludedHeader kv.1 && !(excludeIfEmptyHeader kv.1 && jsTrimEmpty kv.2)

/-- The first Reply-To header with a non-blank value, the one the pipeline
stores. -/
def firstReplyToEntry (hs : List (String × String)) : Option (String × String) :=
  hs.find? (fun kv => jsToLower kv.1 == "reply-to" && !jsTrimEmpty kv.2)

/-- The first From header; its value is captured as `origFrom`. -/
def firstFromEntry (hs : List (String × String)) : Option (String × String) :=
  hs.find? (fun kv => jsToLower kv.1 == "from")

/-- The body veto condition: some body line matches some global reject
entry. -/
def bodyVeto (pats : List StrOrPat) (body : List String) : Bool :=
  body.any (lineRejected pats)

/-- An output line whose header key lowercases to `reply-to`. -/
def isRTLine (l : String) : Bool :=
  match headerMatch l with
  | some kv => jsToLower kv.1 == "reply-to"
  | none => false

lemma keyScan_append (rest : List Char) :
    ∀ k : List Char, (∀ c ∈ k, (!isJsSpace c && c != ':') = true) →
      keyScan (k ++ ':' :: rest) = some (k, rest)
  | [] => by intro _; simp [keyScan]
  | c :: k => by
    intro h
    have hc := h c (List.mem_cons_self c k)
    simp only [Bool.and_eq_true, Bool.not_eq_true', bne_iff_ne, ne_eq] at hc
    have ih := keyScan_append rest k
      (fun x hx => h x (List.mem_cons_of_mem c hx))
    simp [keyScan, hc.1, hc.2, ih]

lemma headerMatch_hline (k v : String) (hk : wfKeyStr k = true)
    (hv : wfValStr v = true) : headerMatch (hline (k, v)) = some (k, v) := by
  have hk2 := hk
  unfold wfKeyStr at hk2
  rw [Bool.and_eq_true] at hk2
  have hne2 : k.toList.isEmpty = false := by simpa using hk2.1
  have hne3 : ¬(k.toList = []) := by
    intro h
    rw [h] at hne2
    simp at hne2
  have hall := List.all_eq_true.mp hk2.2
  have hv2 : ∀ x ∈ v.toList, isDotExcluded x = false := by
    intro x hx
    unfold wfValStr at hv
    simpa using List.all_eq_true.mp hv x hx
  have htl : (hline (k, v)).toList = k.toList ++ ':' :: ' ' :: v.toList := by
    simp [hline, strToList_append]
  unfold headerMatch
  rw [htl, keyScan_append (' ' :: v.toList) k.toList hall]
  simp only [valScan, show isJsSpace ' ' = true from rfl, if_true]
  simp [hne3, strMk_toList]
  refine ⟨by simpa using hne3, ?_⟩
  rw [if_pos (show ∀ x ∈ v.data, isDotExcluded x = false from hv2)]

/-- Characterization of a successful header flush: the state produced by the
`currentHeader.length > 0` block of `processMessage` for a parsed header
`kv`. -/
def flushResult (r : String) (st : PMState) (kv : String × String) : PMState :=
  if excludedHeader kv.1 then { st with currentHeader := [] }
  else if excludeIfEmptyHeader kv.1 && jsTrimEmpty kv.2 then
    { st with currentHeader := [] }
  else if (getAssoc st.headers (jsToLower kv.1)).isSome &&
      !allowDuplicateHeader kv.1 then
    { st with currentHeader := [] }
  else if jsToLower kv.1 == "from" then
    { headers := setAssoc st.headers (jsToLower kv.1) (fromValue r kv.2),
      newMessageLines := st.newMessageLines ++ [kv.1 ++ ": " ++ fromValue r kv.2],
      currentHeader := [], inHeaders := st.inHeaders, origFrom := kv.2 }
  else
    { st with
      headers := setAssoc st.headers (jsToLower kv.1) kv.2,
      newMessageLines := st.newMessageLines ++ st.currentHeader,
      currentHeader := [] }

lemma flushHeader_empty (r : String) (st : PMState)
    (he : st.currentHeader = []) : flushHeader r st = .ok st := by
  unfold flushHeader
  simp [he]

lemma flushHeader_some (r : String) (st : PMState) (kv : String × String)
    (hne : st.currentHeader.isEmpty = false)
    (hm : headerMatch (joinSpace st.currentHeader) = some kv) :
    flushHeader r st = .ok (flushResult r st kv) := by
  unfold flushHeader flushResult fromValue
  rw [if_neg (by simp [hne]), hm]
  by_cases h1 : excludedHeader kv.1 = true
  · simp [h1]
  · by_cases h2 : (excludeIfEmptyHeader kv.1 && jsTrimEmpty kv.2) = true
    · simp [h1, h2]
    · by_cases h3 : ((getAssoc st.headers (jsToLower kv.1)).isSome &&
          !allowDuplicateHeader kv.1) = true
      · simp [h1, h2, h3]
      · by_cases h4 : (jsToLower kv.1 == "from") = true
        · simp [h1, h2, h3, h4]
        · simp [h1, h2, h3, h4]

lemma flushHeader_none (r : String) (st : PMState)
    (hne : st.currentHeader.isEmpty = false)
    (hm : headerMatch (joinSpace st.currentHeader) = none) :
    flushHeader r st =
      .error ("Failed to parse message header:\n" ++ joinSpace st.currentHeader) := by
  unfold flushHeader
  rw [if_neg (by simp [hne]), hm]

lemma joinSpace_single (l : String) : joinSpace [l] = l := rfl

lemma strBeq_false_of_ne {a b : String} (h : a ≠ b) : (a == b) = false := by
  rw [← Bool.not_eq_true, beq_iff_eq]
  exact h

lemma getAssoc_isSome_nonempty (m : List (String × String)) (k : String)
    (h : (getAssoc m k).isSome = true) : m.isEmpty = false := by
  cases m with
  | nil => simp [getAssoc] at h
  | cons p m2 => rfl

lemma setAssoc_isEmpty (m : List (String × String)) (k v : String) :
    (setAssoc m k v).isEmpty = false := by
  unfold setAssoc
  split_ifs with h
  · cases m with
    | nil => simp at h
    | cons p m2 => rfl
  · cases m <;> rfl

lemma find?_append (p : (String × String) → Bool) :
    ∀ l1 l2 : List (String × String),
      List.find? p (l1 ++ l2) =
        (match List.find? p l1 with
         | some a => some a
         | none => List.find? p l2)
  | [], l2 => rfl
  | a :: l1, l2 => by
    by_cases ha : p a = true
    · simp [List.find?_cons, ha]
    · simp [List.find?_cons, ha, find?_append p l1 l2]

lemma map_find?_self (k v : String) : ∀ m : List (String × String),
    (m.find? (fun p => p.1 == k)).isSome = true →
    (m.map (fun p => if p.1 == k then (k, v) else p)).find? (fun p => p.1 == k)
      = some (k, v)
  | [] => by simp
  | p :: m2 => by
    intro h
    rw [List.map_cons, List.find?]
    by_cases hp : (p.1 == k) = true
    · rw [show ((if p.1 == k then (k, v) else p).1 == k) = true from by simp [hp]]
      simp [hp]
    · rw [show ((if p.1 == k then (k, v) else p).1 == k) = false from by
        rw [if_neg hp]
        simpa using hp]
      have h2 : (List.find? (fun p => p.1 == k) m2).isSome = true := by
        rw [List.find?, show (p.1 == k) = false from by simpa using hp] at h
        exact h
      exact map_find?_self k v m2 h2

lemma map_find?_ne (k v kx : String) (hne : kx ≠ k) :
    ∀ m : List (String × String),
    (m.map (fun p => if p.1 == k then (k, v) else p)).find? (fun p => p.1 == kx)
      = m.find? (fun p => p.1 == kx)
  | [] => rfl
  | p :: m2 => by
    rw [List.map_cons, List.find?, List.find?]
    by_cases hp : (p.1 == k) = true
    · have hpk : p.1 = k := by simpa using hp
      have h1 : ((k : String) == kx) = false :=
        strBeq_false_of_ne (fun hcontra => hne hcontra.symm)
      have h2 : (p.1 == kx) = false := by rw [hpk]; exact h1
      rw [if_pos hp, show (((k, v) : String × String).1 == kx) = false from h1, h2]
      exact map_find?_ne k v kx hne m2
    · rw [if_neg hp]
      by_cases hx : (p.1 == kx) = true
      · rw [hx]
      · rw [show (p.1 == kx) = false from by simpa using hx]
        exact map_find?_ne k v kx hne m2

lemma getAssoc_setAssoc_self (m : List (String × String)) (k v : String) :
    getAssoc (setAssoc m k v) k = some v := by
  unfold getAssoc setAssoc
  split_ifs with h
  · rw [map_find?_self k v m h]
    rfl
  · have hnone : List.find? (fun p => p.1 == k) m = none := by
      rcases hcase : List.find? (fun p => p.1 == k) m with _ | a
      · exact hcase
      · rw [hcase] at h
        simp at h
    rw [find?_append]
    rw [hnone]
    simp [List.find?]

lemma getAssoc_setAssoc_ne (m : List (String × String)) (k v kx : String)
    (hne : kx ≠ k) : getAssoc (setAssoc m k v) kx = getAssoc m kx := by
  unfold getAssoc setAssoc
  split_ifs with h
  · rw [map_find?_ne k v kx hne m]
  · rw [find?_append]
    rcases hcase : List.find? (fun p => p.1 == kx) m with _ | a
    · rw [hcase]
      have hkk : ((k : String) == kx) = false :=
        strBeq_false_of_ne (fun hcontra => hne hcontra.symm)
      simp [List.find?, hkk]
    · rw [hcase]

lemma excluded_cases (k : String) (h : excludedHeader k = true) :
    jsToLower k = "return-path" ∨ jsToLower k = "sender" ∨
      jsToLower k = "dkim-signature" := by
  unfold excludedHeader at h
  simp only [Bool.or_eq_true, beq_iff_eq] at h
  exact or_assoc.mp h

lemma from_not_excluded (k : String) (h : jsToLower k = "from") :
    excludedHeader k = false := by
  unfold excludedHeader
  rw [h]
  decide

lemma from_not_excludeIfEmpty (k : String) (h : jsToLower k = "from") :
    excludeIfEmptyHeader k = false := by
  unfold excludeIfEmptyHeader
  rw [h]
  decide

lemma from_not_allowDup (k : String) (h : jsToLower k = "from") :
    allowDuplicateHeader k = false := by
  unfold allowDuplicateHeader
  rw [h]
  decide

lemma rt_not_excluded (k : String) (h : jsToLower k = "reply-to") :
    excludedHeader k = false := by
  unfold excludedHeader
  rw [h]
  decide

lemma rt_not_from (k : String) (h : jsToLower k = "reply-to") :
    (jsToLower k == "from") = false := by
  rw [h]
  decide

lemma rt_not_allowDup (k : String) (h : jsToLower k = "reply-to") :
    allowDuplicateHeader k = false := by
  unfold allowDuplicateHeader
  rw [h]
  decide

/-- One header step of the structured fold: flush a singleton buffer holding
the wire line of `kv`. -/
def stepKV (r : String) (st : PMState) (kv : String × String) : PMState :=
  flushResult r { st with currentHeader := [hline kv] } kv

/-- The structured header fold: process each (key, value) pair through the
flush step of `processMessage`, as the line loop does for single-line
headers. -/
def foldHeaders (r : String) :
    List (String × String) → PMState → Except String PMState
  | [], st => .ok st
  | kv :: rest, st =>
    match flushHeader r { st with currentHeader := [hline kv] } with
    | .error e => .error e
    | .ok s1 => foldHeaders r rest s1

lemma flushHeader_hline (r : String) (st : PMState) (kv : String × String)
    (hkv : wfHeaderKV kv = true) :
    flushHeader r { st with currentHeader := [hline kv] }
      = .ok (stepKV r st kv) := by
  obtain ⟨k, v⟩ := kv
  unfold wfHeaderKV at hkv
  rw [Bool.and_eq_true] at hkv
  exact flushHeader_some r _ (k, v) (by simp)
    (by
      show headerMatch (joinSpace [hline (k, v)]) = some (k, v)
      rw [joinSpace_single]
      exact headerMatch_hline k v hkv.1 hkv.2)

lemma foldHeaders_cons (r : String) (rest : List (String × String))
    (st : PMState) (kv : String × String) (hkv : wfHeaderKV kv = true) :
    foldHeaders r (kv :: rest) st = foldHeaders r rest (stepKV r st kv) := by
  show (match flushHeader r { st with currentHeader := [hline kv] } with
    | .error e => .error e
    | .ok s1 => foldHeaders r rest s1) = foldHeaders r rest (stepKV r st kv)
  rw [flushHeader_hline r st kv hkv]

lemma stepKV_currentHeader (r : String) (st : PMState) (kv : String × String) :
    (stepKV r st kv).currentHeader = [] := by
  unfold stepKV flushResult
  split_ifs <;> rfl

lemma stepKV_inHeaders (r : String) (st : PMState) (kv : String × String) :
    (stepKV r st kv).inHeaders = st.inHeaders := by
  unfold stepKV flushResult
  split_ifs <;> rfl

lemma stepKV_isEmpty (r : String) (st : PMState) (kv : String × String) :
    (stepKV r st kv).headers.isEmpty
      = (st.headers.isEmpty && !keptHeader kv) := by
  unfold stepKV flushResult keptHeader
  by_cases h1 : excludedHeader kv.1 = true
  · simp [h1]
  · by_cases h2 : (excludeIfEmptyHeader kv.1 && jsTrimEmpty kv.2) = true
    · simp [h1, h2]
    · by_cases h3 : ((getAssoc st.headers (jsToLower kv.1)).isSome &&
          !allowDuplicateHeader kv.1) = true
      · have h3b := h3
        rw [Bool.and_eq_true] at h3b
        have hne := getAssoc_isSome_nonempty st.headers (jsToLower kv.1) h3b.1
        simp [h1, h2, h3, hne]
      · by_cases h4 : (jsToLower kv.1 == "from") = true
        · simp [h1, h2, h3, h4, setAssoc_isEmpty]
        · simp [h1, h2, h3, h4, setAssoc_isEmpty]

lemma foldHeaders_ok (r : String) : ∀ (hs : List (String × String))
    (st : PMState), hs.all wfHeaderKV = true → st.currentHeader = [] →
    ∃ s1, foldHeaders r hs st = .ok s1 ∧ s1.currentHeader = [] ∧
      s1.inHeaders = st.inHeaders
  | [], st => fun _ hch => ⟨st, rfl, hch, rfl⟩
  | kv :: rest, st => by
    intro hall hch
    rw [List.all_cons, Bool.and_eq_true] at hall
    rw [foldHeaders_cons r rest st kv hall.1]
    obtain ⟨s1, h1, h2, h3⟩ := foldHeaders_ok r rest (stepKV r st kv) hall.2
      (stepKV_currentHeader r st kv)
    exact ⟨s1, h1, h2, h3.trans (stepKV_inHeaders r st kv)⟩

lemma foldHeaders_isEmpty (r : String) : ∀ (hs : List (String × String))
    (st : PMState) (s1 : PMState), hs.all wfHeaderKV = true →
    foldHeaders r hs st = .ok s1 →
    s1.headers.isEmpty = (st.headers.isEmpty && !hs.any keptHeader)
  | [], st, s1 => by
    intro _ h
    cases h
    simp
  | kv :: rest, st, s1 => by
    intro hall h
    rw [List.all_cons, Bool.and_eq_true] at hall
    rw [foldHeaders_cons r rest st kv hall.1] at h
    have ih := foldHeaders_isEmpty r rest (stepKV r st kv) s1 hall.2 h
    rw [ih, stepKV_isEmpty]
    cases hst : st.headers.isEmpty <;>
      cases hk : keptHeader kv <;>
      simp [List.any_cons, hk]

lemma stepKV_getAssoc_ne (r : String) (st : PMState) (kv : String × String)
    (t : String) (h : (jsToLower kv.1 == t) = false) :
    getAssoc (stepKV r st kv).headers t = getAssoc st.headers t := by
  have hne : t ≠ jsToLower kv.1 := by
    intro hc
    rw [hc] at h
    simp at h
  unfold stepKV flushResult
  split_ifs <;>
    first
      | rfl
      | exact getAssoc_setAssoc_ne st.headers (jsToLower kv.1) _ t hne

lemma stepKV_origFrom_ne (r : String) (st : PMState) (kv : String × String)
    (h : (jsToLower kv.1 == "from") = false) :
    (stepKV r st kv).origFrom = st.origFrom := by
  unfold stepKV flushResult
  split_ifs with h1 h2 h3 h4
  · rfl
  · rfl
  · rfl
  · rw [h4] at h
    simp at h
  · rfl

lemma stepKV_from (r : String) (st : PMState) (kv : String × String)
    (hf : (jsToLower kv.1 == "from") = true)
    (hnodup : (getAssoc st.headers "from").isSome = false) :
    stepKV r st kv =
      { headers := setAssoc st.headers "from" (fromValue r kv.2),
        newMessageLines :=
          st.newMessageLines ++ [kv.1 ++ ": " ++ fromValue r kv.2],
        currentHeader := [], inHeaders := st.inHeaders,
        origFrom := kv.2 } := by
  have hfe : jsToLower kv.1 = "from" := by simpa using hf
  unfold stepKV flushResult
  rw [if_neg (by simp [from_not_excluded kv.1 hfe]),
    if_neg (by simp [from_not_excludeIfEmpty kv.1 hfe]),
    if_neg (by rw [hfe]; simp [hnodup]),
    if_pos hf, hfe]

lemma stepKV_from_dup (r : String) (st : PMState) (kv : String × String)
    (hf : (jsToLower kv.1 == "from") = true)
    (hdup : (getAssoc st.headers "from").isSome = true) :
    stepKV r st kv = { st with currentHeader := [] } := by
  have hfe : jsToLower kv.1 = "from" := by simpa using hf
  unfold stepKV flushResult
  rw [if_neg (by simp [from_not_excluded kv.1 hfe]),
    if_neg (by simp [from_not_excludeIfEmpty kv.1 hfe]),
    if_pos (by rw [hfe]; simp [hdup, from_not_allowDup kv.1 hfe])]

lemma stepKV_rt_blank (r : String) (st : PMState) (kv : String × String)
    (hrt : (jsToLower kv.1 == "reply-to") = true)
    (hblank : jsTrimEmpty kv.2 = true) :
    stepKV r st kv = { st with currentHeader := [] } := by
  have hre : jsToLower kv.1 = "reply-to" := by simpa using hrt
  unfold stepKV flushResult
  rw [if_neg (by simp [rt_not_excluded kv.1 hre]),
    if_pos (by unfold excludeIfEmptyHeader; rw [hre]; simp [hblank])]

lemma stepKV_rt_dup (r : String) (st : PMState) (kv : String × String)
    (hrt : (jsToLower kv.1 == "reply-to") = true)
    (hnb : jsTrimEmpty kv.2 = false)
    (hdup : (getAssoc st.headers "reply-to").isSome = true) :
    stepKV r st kv = { st with currentHeader := [] } := by
  have hre : jsToLower kv.1 = "reply-to" := by simpa using hrt
  unfold stepKV flushResult
  rw [if_neg (by simp [rt_not_excluded kv.1 hre]),
    if_neg (by unfold excludeIfEmptyHeader; rw [hre]; simp [hnb]),
    if_pos (by rw [hre]; simp [hdup, rt_not_allowDup kv.1 hre])]

lemma stepKV_rt_store (r : String) (st : PMState) (kv : String × String)
    (hrt : (jsToLower kv.1 == "reply-to") = true)
    (hnb : jsTrimEmpty kv.2 = false)
    (hnodup : (getAssoc st.headers "reply-to").isSome = false) :
    stepKV r st kv =
      { st with
        headers := setAssoc st.headers "reply-to" kv.2,
        newMessageLines := st.newMessageLines ++ [hline kv],
        currentHeader := [] } := by
  have hre : jsToLower kv.1 = "reply-to" := by simpa using hrt
  unfold stepKV flushResult
  rw [if_neg (by simp [rt_not_excluded kv.1 hre]),
    if_neg (by unfold excludeIfEmptyHeader; rw [hre]; simp [hnb]),
    if_neg (by rw [hre]; simp [hnodup]),
    if_neg (by simp [rt_not_from kv.1 hre]), hre]

lemma foldHeaders_from (r : String) : ∀ (hs : List (String × String))
    (st s1 : PMState), hs.all wfHeaderKV = true →
    foldHeaders r hs st = .ok s1 →
    ((getAssoc s1.headers "from").isSome
      = ((getAssoc st.headers "from").isSome ||
          hs.any (fun kv => jsToLower kv.1 == "from"))) ∧
    (s1.origFrom = if (getAssoc st.headers "from").isSome = true then st.origFrom
      else
        match hs.find? (fun kv => jsToLower kv.1 == "from") with
        | some kv => kv.2
        | none => st.origFrom)
  | [], st, s1 => by
    intro _ h
    cases h
    simp
  | kv :: rest, st, s1 => by
    intro hall h
    rw [List.all_cons, Bool.and_eq_true] at hall
    rw [foldHeaders_cons r rest st kv hall.1] at h
    by_cases hf : (jsToLower kv.1 == "from") = true
    · by_cases hdup : (getAssoc st.headers "from").isSome = true
      · rw [stepKV_from_dup r st kv hf hdup] at h
        have ih := foldHeaders_from r rest { st with currentHeader := [] } s1
          hall.2 h
        simp only [List.any_cons, List.find?_cons] at ih ⊢
        constructor
        · rw [ih.1]
          simp [hdup]
        · rw [ih.2]
          simp [hdup]
      · rw [stepKV_from r st kv hf (Bool.eq_false_iff.mpr hdup)] at h
        have ih := foldHeaders_from r rest _ s1 hall.2 h
        have hself : getAssoc (setAssoc st.headers "from" (fromValue r kv.2))
            "from" = some (fromValue r kv.2) :=
          getAssoc_setAssoc_self st.headers "from" (fromValue r kv.2)
        simp only [hself] at ih
        simp only [List.any_cons, List.find?_cons, hf]
        constructor
        · rw [ih.1]
          simp [hdup, hf]
        · rw [ih.2]
          simp [hdup]
    · have hnf : (jsToLower kv.1 == "from") = false := by simpa using hf
      have hga := stepKV_getAssoc_ne r st kv "from" hnf
      have hof := stepKV_origFrom_ne r st kv hnf
      have ih := foldHeaders_from r rest (stepKV r st kv) s1 hall.2 h
      rw [hga] at ih
      rw [hof] at ih
      simp only [List.any_cons, List.find?_cons, hnf]
      constructor
      · rw [ih.1]
        simp
      · rw [ih.2]

lemma strToList_mk (l : List Char) : (String.mk l).toList = l := rfl

lemma wfValStr_append (a b : String) :
    wfValStr (a ++ b) = (wfValStr a && wfValStr b) := by
  unfold wfValStr
  rw [strToList_append, List.all_append]

lemma sanitizeChar_not_dot (a c : Char) (ha : isDotExcluded a = false)
    (h : sanitizeChar a = some c) : isDotExcluded c = false := by
  unfold sanitizeChar at h
  by_cases h1 : a = '"'
  · rw [if_pos h1] at h
    cases h
  · rw [if_neg h1] at h
    by_cases h2 : a = '<'
    · rw [if_pos h2] at h
      have hc : c = '(' := by injection h with h4; exact h4.symm
      rw [hc]
      decide
    · rw [if_neg h2] at h
      by_cases h3 : a = '>'
      · rw [if_pos h3] at h
        have hc : c = ')' := by injection h with h4; exact h4.symm
        rw [hc]
        decide
      · rw [if_neg h3] at h
        have hc : c = a := by injection h with h4; exact h4.symm
        rw [hc]
        exact ha

lemma wfValStr_sanitize (v : String) (hv : wfValStr v = true) :
    wfValStr (sanitizeFrom v) = true := by
  unfold wfValStr sanitizeFrom
  rw [strToList_mk, List.all_eq_true]
  intro c hc
  obtain ⟨a, ha, hfa⟩ := List.mem_filterMap.mp hc
  have haa : isDotExcluded a = false := by
    unfold wfValStr at hv
    simpa using List.all_eq_true.mp hv a ha
  simpa using sanitizeChar_not_dot a c haa hfa

lemma wfValStr_fromValue (r v : String) (hr : wfValStr r = true)
    (hv : wfValStr v = true) : wfValStr (fromValue r v) = true := by
  unfold fromValue
  simp [wfValStr_append, wfValStr_sanitize v hv, hr,
    show wfValStr "\"" = true from by decide,
    show wfValStr "\" <" = true from by decide,
    show wfValStr ">" = true from by decide]

lemma isRTLine_hline (k v : String) (hk : wfKeyStr k = true)
    (hv : wfValStr v = true) :
    isRTLine (hline (k, v)) = (jsToLower k == "reply-to") := by
  unfold isRTLine
  rw [headerMatch_hline k v hk hv]

lemma stepKV_rtfilter_ne (r : String) (st : PMState) (kv : String × String)
    (hkv : wfHeaderKV kv = true) (hr : wfValStr r = true)
    (hrt : (jsToLower kv.1 == "reply-to") = false) :
    (stepKV r st kv).newMessageLines.filter isRTLine
      = st.newMessageLines.filter isRTLine := by
  obtain ⟨hk, hv⟩ : wfKeyStr kv.1 = true ∧ wfValStr kv.2 = true := by
    unfold wfHeaderKV at hkv
    rw [Bool.and_eq_true] at hkv
    exact hkv
  have h5 : isRTLine (hline kv) = false := by
    rw [show hline kv = hline (kv.1, kv.2) from rfl,
      isRTLine_hline kv.1 kv.2 hk hv]
    exact hrt
  have h4 : isRTLine (kv.1 ++ ": " ++ fromValue r kv.2) = false := by
    rw [show kv.1 ++ ": " ++ fromValue r kv.2
        = hline (kv.1, fromValue r kv.2) from rfl,
      isRTLine_hline kv.1 (fromValue r kv.2) hk (wfValStr_fromValue r kv.2 hr hv)]
    exact hrt
  unfold stepKV flushResult
  split_ifs <;> simp [List.filter_append, h4, h5]

lemma foldHeaders_rt_present (r : String) (hr : wfValStr r = true) :
    ∀ (hs : List (String × String)) (st s1 : PMState),
    hs.all wfHeaderKV = true →
    (getAssoc st.headers "reply-to").isSome = true →
    foldHeaders r hs st = .ok s1 →
    s1.newMessageLines.filter isRTLine = st.newMessageLines.filter isRTLine ∧
    getAssoc s1.headers "reply-to" = getAssoc st.headers "reply-to"
  | [], st, s1 => by
    intro _ _ h
    cases h
    exact ⟨rfl, rfl⟩
  | kv :: rest, st, s1 => by
    intro hall hpres h
    rw [List.all_cons, Bool.and_eq_true] at hall
    rw [foldHeaders_cons r rest st kv hall.1] at h
    by_cases hrt : (jsToLower kv.1 == "reply-to") = true
    · by_cases hblank : jsTrimEmpty kv.2 = true
      · rw [stepKV_rt_blank r st kv hrt hblank] at h
        exact foldHeaders_rt_present r hr rest
          { st with currentHeader := [] } s1 hall.2 hpres h
      · rw [stepKV_rt_dup r st kv hrt (Bool.eq_false_iff.mpr hblank) hpres] at h
        exact foldHeaders_rt_present r hr rest
          { st with currentHeader := [] } s1 hall.2 hpres h
    · have hnf : (jsToLower kv.1 == "reply-to") = false := by simpa using hrt
      have hga := stepKV_getAssoc_ne r st kv "reply-to" hnf
      have hfil := stepKV_rtfilter_ne r st kv hall.1 hr hnf
      have ih := foldHeaders_rt_present r hr rest (stepKV r st kv) s1 hall.2
        (by rw [hga]; exact hpres) h
      exact ⟨ih.1.trans hfil, ih.2.trans hga⟩

lemma foldHeaders_rt_absent (r : String) (hr : wfValStr r = true) :
    ∀ (hs : List (String × String)) (st s1 : PMState),
    hs.all wfHeaderKV = true →
    getAssoc st.headers "reply-to" = none →
    foldHeaders r hs st = .ok s1 →
    s1.newMessageLines.filter isRTLine
      = st.newMessageLines.filter isRTLine ++
        (match firstReplyToEntry hs with
         | some kv => [hline kv]
         | none => []) ∧
    getAssoc s1.headers "reply-to"
      = (firstReplyToEntry hs).map (fun kv => kv.2)
  | [], st, s1 => by
    intro _ habs h
    cases h
    exact ⟨by simp [firstReplyToEntry], by simp [firstReplyToEntry, habs]⟩
  | kv :: rest, st, s1 => by
    intro hall habs h
    rw [List.all_cons, Bool.and_eq_true] at hall
    rw [foldHeaders_cons r rest st kv hall.1] at h
    obtain ⟨hk, hv⟩ : wfKeyStr kv.1 = true ∧ wfValStr kv.2 = true := by
      have := hall.1
      unfold wfHeaderKV at this
      rw [Bool.and_eq_true] at this
      exact this
    by_cases hrt : (jsToLower kv.1 == "reply-to") = true
    · by_cases hblank : jsTrimEmpty kv.2 = true
      · rw [stepKV_rt_blank r st kv hrt hblank] at h
        have ih := foldHeaders_rt_absent r hr rest
          { st with currentHeader := [] } s1 hall.2 habs h
        have hpred : (jsToLower kv.1 == "reply-to" && !jsTrimEmpty kv.2)
            = false := by simp [hrt, hblank]
        unfold firstReplyToEntry at ih ⊢
        rw [List.find?_cons, hpred]
        exact ih
      · have hnb : jsTrimEmpty kv.2 = false := Bool.eq_false_iff.mpr hblank
        rw [stepKV_rt_store r st kv hrt hnb (by rw [habs]; rfl)] at h
        have hself := getAssoc_setAssoc_self st.headers "reply-to" kv.2
        have ih := foldHeaders_rt_present r hr rest _ s1 hall.2
          (by
            show (getAssoc
              ({ st with
                headers := setAssoc st.headers "reply-to" kv.2,
                newMessageLines := st.newMessageLines ++ [hline kv],
                currentHeader := [] } : PMState).headers "reply-to").isSome = true
            rw [hself]
            rfl) h
        have hpred : (jsToLower kv.1 == "reply-to" && !jsTrimEmpty kv.2)
            = true := by simp [hrt, hnb]
        have hrtl : isRTLine (hline kv) = true := by
          rw [show hline kv = hline (kv.1, kv.2) from rfl,
            isRTLine_hline kv.1 kv.2 hk hv]
          exact hrt
        unfold firstReplyToEntry
        rw [List.find?_cons, hpred]
        constructor
        · rw [ih.1]
          show (st.newMessageLines ++ [hline kv]).filter isRTLine = _
          rw [List.filter_append]
          simp [hrtl]
        · rw [ih.2]
          show getAssoc (setAssoc st.headers "reply-to" kv.2) "reply-to" = _
          rw [hself]
          rfl
    · have hnf : (jsToLower kv.1 == "reply-to") = false := by simpa using hrt
      have hga := stepKV_getAssoc_ne r st kv "reply-to" hnf
      have hfil := stepKV_rtfilter_ne r st kv hall.1 hr hnf
      have ih := foldHeaders_rt_absent r hr rest (stepKV r st kv) s1 hall.2
        (by rw [hga]; exact habs) h
      have hpred : (jsToLower kv.1 == "reply-to" && !jsTrimEmpty kv.2)
          = false := by simp [hnf]
      unfold firstReplyToEntry at ih ⊢
      rw [List.find?_cons, hpred]
      exact ⟨by rw [ih.1, hfil], ih.2⟩

lemma stepKV_nm_mono (r : String) (st : PMState) (kv : String × String) :
    ∃ d, (stepKV r st kv).newMessageLines = st.newMessageLines ++ d := by
  unfold stepKV flushResult
  split_ifs
  · exact ⟨[], by simp⟩
  · exact ⟨[], by simp⟩
  · exact ⟨[], by simp⟩
  · exact ⟨[kv.1 ++ ": " ++ fromValue r kv.2], rfl⟩
  · exact ⟨[hline kv], rfl⟩

lemma foldHeaders_nm_mono (r : String) : ∀ (hs : List (String × String))
    (st s1 : PMState), hs.all wfHeaderKV = true →
    foldHeaders r hs st = .ok s1 →
    ∃ d, s1.newMessageLines = st.newMessageLines ++ d
  | [], st, s1 => by
    intro _ h
    cases h
    exact ⟨[], by simp⟩
  | kv :: rest, st, s1 => by
    intro hall h
    rw [List.all_cons, Bool.and_eq_true] at hall
    rw [foldHeaders_cons r rest st kv hall.1] at h
    obtain ⟨d1, hd1⟩ := stepKV_nm_mono r st kv
    obtain ⟨d2, hd2⟩ := foldHeaders_nm_mono r rest (stepKV r st kv) s1 hall.2 h
    exact ⟨d1 ++ d2, by rw [hd2, hd1, List.append_assoc]⟩

lemma foldHeaders_fromline (r : String) : ∀ (hs : List (String × String))
    (st s1 : PMState), hs.all wfHeaderKV = true →
    (getAssoc st.headers "from").isSome = false →
    foldHeaders r hs st = .ok s1 →
    ∀ k v, firstFromEntry hs = some (k, v) →
      (k ++ ": " ++ fromValue r v) ∈ s1.newMessageLines
  | [], st, s1 => by
    intro _ _ _ k v hfind
    simp [firstFromEntry] at hfind
  | kv :: rest, st, s1 => by
    intro hall hnodup h k v hfind
    rw [List.all_cons, Bool.and_eq_true] at hall
    rw [foldHeaders_cons r rest st kv hall.1] at h
    by_cases hf : (jsToLower kv.1 == "from") = true
    · unfold firstFromEntry at hfind
      rw [List.find?_cons, hf] at hfind
      have hkv : kv = (k, v) := by simpa using hfind
      rw [stepKV_from r st kv hf hnodup] at h
      obtain ⟨d2, hd2⟩ := foldHeaders_nm_mono r rest _ s1 hall.2 h
      rw [hd2, hkv]
      simp
    · have hnf : (jsToLower kv.1 == "from") = false := by simpa using hf
      have hga := stepKV_getAssoc_ne r st kv "from" hnf
      have hfind2 : firstFromEntry rest = some (k, v) := by
        unfold firstFromEntry at hfind ⊢
        rw [List.find?_cons, hnf] at hfind
        exact hfind
      exact foldHeaders_fromline r rest (stepKV r st kv) s1 hall.2
        (by rw [hga]; exact hnodup) h k v hfind2

lemma flushResult_inHeaders (r : String) (st : PMState) (kv : String × String) :
    (flushResult r st kv).inHeaders = st.inHeaders := by
  unfold flushResult
  split_ifs <;> rfl

lemma flushHeader_inHeaders (r : String) (st s0 : PMState)
    (h : flushHeader r st = .ok s0) : s0.inHeaders = st.inHeaders := by
  by_cases he : st.currentHeader.isEmpty = true
  · rw [flushHeader_empty r st (List.isEmpty_iff.mp he)] at h
    cases h
    rfl
  · cases hm : headerMatch (joinSpace st.currentHeader) with
    | none =>
      rw [flushHeader_none r st (Bool.eq_false_iff.mpr he) hm] at h
      cases h
    | some kv =>
      rw [flushHeader_some r st kv (Bool.eq_false_iff.mpr he) hm] at h
      cases h
      exact flushResult_inHeaders r st kv

lemma startsWithSpace_hline (k v : String) (hk : wfKeyStr k = true) :
    startsWithSpace (hline (k, v)) = false := by
  have htl : (hline (k, v)).toList = k.toList ++ ':' :: ' ' :: v.toList := by
    simp [hline, strToList_append]
  unfold wfKeyStr at hk
  rw [Bool.and_eq_true] at hk
  cases hc : k.toList with
  | nil =>
    rw [hc] at hk
    simp at hk
  | cons c cs =>
    have hcpred := List.all_eq_true.mp hk.2 c (by rw [hc]; exact List.mem_cons_self c cs)
    rw [Bool.and_eq_true] at hcpred
    have hcs : isJsSpace c = false := by simpa using hcpred.1
    unfold startsWithSpace
    rw [htl, hc]
    simpa using hcs

lemma hline_ne_empty (k v : String) (hk : wfKeyStr k = true) :
    (hline (k, v) == "") = false := by
  have htl : (hline (k, v)).toList = k.toList ++ ':' :: ' ' :: v.toList := by
    simp [hline, strToList_append]
  apply strBeq_false_of_ne
  intro hcontra
  rw [hcontra] at htl
  cases hc : k.toList with
  | nil =>
    unfold wfKeyStr at hk
    rw [Bool.and_eq_true] at hk
    rw [hc] at hk
    simp at hk
  | cons c cs =>
    rw [hc] at htl
    cases htl

lemma runLines_body (pats : List StrOrPat) (r : String) :
    ∀ (body : List String) (st : PMState), st.inHeaders = false →
    runLines pats r body st =
      (if body.any (lineRejected pats) then .ok none
       else .ok (some { st with
         newMessageLines := st.newMessageLines ++ body }))
  | [], st => by
    intro _
    cases st
    simp [runLines]
  | line :: body, st => by
    intro hin
    rw [show runLines pats r (line :: body) st
        = (match processLine pats r st line with
           | Except.error e => Except.error e
           | Except.ok none => Except.ok none
           | Except.ok (some s1) => runLines pats r body s1) from rfl]
    unfold processLine
    rw [hin]
    simp only [Bool.false_eq_true, if_false]
    by_cases hrej : lineRejected pats line = true
    · simp [List.any_cons, hrej]
    · have hrf : lineRejected pats line = false := Bool.eq_false_iff.mpr hrej
      rw [if_neg (by simp [hrf])]
      rw [show (match (Except.ok (some { st with
            newMessageLines := st.newMessageLines ++ [line],
            inHeaders := false }) : Except String (Option PMState)) with
          | Except.error e => Except.error e
          | Except.ok none => Except.ok none
          | Except.ok (some s1) => runLines pats r body s1)
        = runLines pats r body { st with
            newMessageLines := st.newMessageLines ++ [line],
            inHeaders := false } from rfl]
      rw [runLines_body pats r body _ rfl]
      by_cases hany : body.any (lineRejected pats) = true
      · simp [List.any_cons, hrf, hany]
      · have hanyf : body.any (lineRejected pats) = false :=
          Bool.eq_false_iff.mpr hany
        simp only [List.any_cons, hrf, hanyf, Bool.false_or,
          Bool.false_eq_true, if_false]
        simp [List.append_assoc]

lemma runLines_header (pats : List StrOrPat) (r : String) (body : List String) :
    ∀ (hs : List (String × String)) (st : PMState), st.inHeaders = true →
    hs.all wfHeaderKV = true →
    runLines pats r (hs.map hline ++ "" :: body) st =
      (match flushHeader r st with
       | Except.error e => Except.error e
       | Except.ok s0 =>
         match foldHeaders r hs s0 with
         | Except.error e => Except.error e
         | Except.ok s1 =>
           if s1.headers.isEmpty then
             Except.error "Message had no headers (started with blank line)"
           else
             runLines pats r body
               { s1 with
                 inHeaders := false,
                 newMessageLines :=
                   s1.newMessageLines ++ replyToInjection s1 ++ [""] })
  | [], st => by
    intro hin _
    rw [List.map_nil, List.nil_append]
    cases hflush : flushHeader r st with
    | error e =>
      simp [runLines, processLine, hin, startsWithSpace, hflush]
    | ok s0 =>
      cases hemp : s0.headers.isEmpty with
      | true =>
        simp [runLines, processLine, hin, startsWithSpace, hflush,
          foldHeaders, hemp]
      | false =>
        simp [runLines, processLine, hin, startsWithSpace, hflush,
          foldHeaders, hemp]
  | kv :: hs, st => by
    intro hin hall
    rw [List.all_cons, Bool.and_eq_true] at hall
    obtain ⟨hk, hv⟩ : wfKeyStr kv.1 = true ∧ wfValStr kv.2 = true := by
      have h2 := hall.1
      unfold wfHeaderKV at h2
      rw [Bool.and_eq_true] at h2
      exact h2
    rw [List.map_cons, List.cons_append]
    rw [show runLines pats r (hline kv :: (hs.map hline ++ "" :: body)) st
        = (match processLine pats r st (hline kv) with
           | Except.error e => Except.error e
           | Except.ok none => Except.ok none
           | Except.ok (some s1) =>
             runLines pats r (hs.map hline ++ "" :: body) s1) from rfl]
    unfold processLine
    rw [hin, if_pos rfl]
    have hsp : startsWithSpace (hline kv) = false := by
      rw [show hline kv = hline (kv.1, kv.2) from rfl]
      exact startsWithSpace_hline kv.1 kv.2 hk
    rw [if_neg (by simp [hsp])]
    have hne : (hline kv == "") = false := by
      rw [show hline kv = hline (kv.1, kv.2) from rfl]
      exact hline_ne_empty kv.1 kv.2 hk
    simp only [hne, Bool.false_eq_true, if_false]
    cases hflush : flushHeader r st with
    | error e => rfl
    | ok s0 =>
      have hin2 : ({ s0 with currentHeader := [hline kv] } : PMState).inHeaders
          = true := by
        show s0.inHeaders = true
        rw [flushHeader_inHeaders r st s0 hflush]
        exact hin
      show runLines pats r (hs.map hline ++ "" :: body)
          { s0 with currentHeader := [hline kv] }
        = (match foldHeaders r (kv :: hs) s0 with
           | Except.error e => Except.error e
           | Except.ok s1 =>
             if s1.headers.isEmpty then
               Except.error "Message had no headers (started with blank line)"
             else
               runLines pats r body
                 { s1 with
                   inHeaders := false,
                   newMessageLines :=
                     s1.newMessageLines ++ replyToInjection s1 ++ [""] })
      rw [runLines_header pats r body hs
        { s0 with currentHeader := [hline kv] } hin2 hall.2]
      rw [foldHeaders_cons r hs s0 kv hall.1]
      rw [flushHeader_hline r s0 kv hall.1]

lemma splitCRLFL_no_cr : ∀ l : List Char, '\r' ∉ l → splitCRLFL l = [l]
  | [] => by intro _; rfl
  | [c] => by intro _; rfl
  | c1 :: c2 :: cs => by
    intro h
    have hc1 : c1 ≠ '\r' := fun hh => h (hh ▸ List.mem_cons_self c1 (c2 :: cs))
    have ih := splitCRLFL_no_cr (c2 :: cs)
      (fun hh => h (List.mem_cons_of_mem c1 hh))
    unfold splitCRLFL
    rw [if_neg (fun hand => hc1 hand.1), ih]

lemma splitCRLFL_append : ∀ (l rest : List Char), '\r' ∉ l →
    splitCRLFL (l ++ '\r' :: '\n' :: rest) = l :: splitCRLFL rest
  | [], rest => by
    intro _
    show splitCRLFL ('\r' :: '\n' :: rest) = [] :: splitCRLFL rest
    conv_lhs => unfold splitCRLFL
    rw [if_pos ⟨rfl, rfl⟩]
  | [c], rest => by
    intro h
    have hc : c ≠ '\r' := fun hh => h (hh ▸ List.mem_cons_self c [])
    have h0 : splitCRLFL ('\r' :: '\n' :: rest) = [] :: splitCRLFL rest :=
      splitCRLFL_append [] rest (by simp)
    show splitCRLFL (c :: '\r' :: '\n' :: rest) = [c] :: splitCRLFL rest
    conv_lhs => unfold splitCRLFL
    rw [if_neg (fun hand => hc hand.1), h0]
  | c1 :: c2 :: cs, rest => by
    intro h
    have hc1 : c1 ≠ '\r' := fun hh => h (hh ▸ List.mem_cons_self c1 (c2 :: cs))
    have h0 : splitCRLFL ((c2 :: cs) ++ '\r' :: '\n' :: rest)
        = (c2 :: cs) :: splitCRLFL rest :=
      splitCRLFL_append (c2 :: cs) rest
        (fun hh => h (List.mem_cons_of_mem c1 hh))
    show splitCRLFL (c1 :: c2 :: (cs ++ '\r' :: '\n' :: rest))
      = (c1 :: c2 :: cs) :: splitCRLFL rest
    conv_lhs => unfold splitCRLFL
    rw [if_neg (fun hand => hc1 hand.1),
      show c2 :: (cs ++ '\r' :: '\n' :: rest)
        = (c2 :: cs) ++ '\r' :: '\n' :: rest from rfl,
      h0]

lemma splitCRLF_joinCRLF : ∀ lines : List String, lines ≠ [] →
    (∀ l ∈ lines, '\r' ∉ l.toList) → splitCRLF (joinCRLF lines) = lines
  | [] => by intro h _; exact absurd rfl h
  | [l] => by
    intro _ h
    show splitCRLF (joinCRLF [l]) = [l]
    rw [show joinCRLF [l] = l from rfl]
    unfold splitCRLF
    rw [splitCRLFL_no_cr l.toList (h l (List.mem_cons_self l []))]
    simp [strMk_toList]
  | l :: l2 :: ls => by
    intro _ h
    have hj : joinCRLF (l :: l2 :: ls) = l ++ "\r\n" ++ joinCRLF (l2 :: ls) := rfl
    have htl : (l ++ "\r\n" ++ joinCRLF (l2 :: ls)).toList
        = l.toList ++ '\r' :: '\n' :: (joinCRLF (l2 :: ls)).toList := by
      rw [show l ++ "\r\n" ++ joinCRLF (l2 :: ls)
          = l ++ ("\r\n" ++ joinCRLF (l2 :: ls)) from by rw [String.append_assoc]]
      rw [strToList_append, strToList_append]
      rfl
    unfold splitCRLF
    rw [hj, htl, splitCRLFL_append l.toList _ (h l (List.mem_cons_self l _))]
    rw [List.map_cons, strMk_toList]
    have ih := splitCRLF_joinCRLF (l2 :: ls) (by simp)
      (fun x hx => h x (List.mem_cons_of_mem l hx))
    unfold splitCRLF at ih
    rw [ih]

lemma wfKey_no_cr (k : String) (hk : wfKeyStr k = true) : '\r' ∉ k.toList := by
  intro hmem
  unfold wfKeyStr at hk
  rw [Bool.and_eq_true] at hk
  have := List.all_eq_true.mp hk.2 '\r' hmem
  simp [isJsSpace] at this

lemma wfVal_no_cr (v : String) (hv : wfValStr v = true) : '\r' ∉ v.toList := by
  intro hmem
  unfold wfValStr at hv
  have := List.all_eq_true.mp hv '\r' hmem
  simp [isDotExcluded] at this

lemma hline_no_cr (kv : String × String) (hkv : wfHeaderKV kv = true) :
    '\r' ∉ (hline kv).toList := by
  obtain ⟨hk, hv⟩ : wfKeyStr kv.1 = true ∧ wfValStr kv.2 = true := by
    unfold wfHeaderKV at hkv
    rw [Bool.and_eq_true] at hkv
    exact hkv
  have htl : (hline kv).toList = kv.1.toList ++ ':' :: ' ' :: kv.2.toList := by
    simp [hline, strToList_append]
  rw [htl]
  intro hmem
  rcases List.mem_append.mp hmem with h1 | h2
  · exact wfKey_no_cr kv.1 hk h1
  · rcases List.mem_cons.mp h2 with h3 | h4
    · cases h3
    · rcases List.mem_cons.mp h4 with h5 | h6
      · cases h5
      · exact wfVal_no_cr kv.2 hv h6

lemma wfBodyLine_no_cr (l : String) (hb : wfBodyLine l = true) :
    '\r' ∉ l.toList := by
  intro hmem
  unfold wfBodyLine at hb
  have := List.all_eq_true.mp hb '\r' hmem
  simp at this

lemma mkMessage_lines (hs : List (String × String)) (body : List String)
    (hwf : hs.all wfHeaderKV = true) (hb : body.all wfBodyLine = true) :
    splitCRLF (mkMessage hs body) = hs.map hline ++ "" :: body := by
  unfold mkMessage
  apply splitCRLF_joinCRLF
  · simp
  · intro l hl
    rcases List.mem_append.mp hl with hl1 | hl2
    · obtain ⟨kv, hkv, hhl⟩ := List.mem_map.mp hl1
      rw [← hhl]
      exact hline_no_cr kv (List.all_eq_true.mp hwf kv hkv)
    · rcases List.mem_cons.mp hl2 with h3 | h4
      · rw [h3]
        simp
      · exact wfBodyLine_no_cr l (List.all_eq_true.mp hb l h4)

/-- Structure of `processMessage` on a message assembled from well-formed
single-line headers and body lines: the header phase is the structured fold,
then the zero-headers check, the body veto, and the reassembly with the
Reply-To injection between the header block and the separator. -/
lemma processMessage_mk (hs : List (String × String)) (body : List String)
    (r : String) (pats : List StrOrPat)
    (hwf : hs.all wfHeaderKV = true) (hb : body.all wfBodyLine = true) :
    ∃ s1, foldHeaders r hs initState = .ok s1 ∧
      processMessage (mkMessage hs body) r pats =
        (if s1.headers.isEmpty then
           .error "Message had no headers (started with blank line)"
         else if bodyVeto pats body then .ok none
         else .ok (some (joinCRLF (s1.newMessageLines ++ replyToInjection s1
           ++ [""] ++ body)))) := by
  obtain ⟨s1, hfold, hch, hinh⟩ := foldHeaders_ok r hs initState hwf rfl
  refine ⟨s1, hfold, ?_⟩
  unfold processMessage
  rw [mkMessage_lines hs body hwf hb,
    runLines_header pats r body hs initState rfl hwf,
    flushHeader_empty r initState rfl]
  simp only [hfold]
  cases hemp : s1.headers.isEmpty with
  | true => simp [hemp]
  | false =>
    simp only [hemp, Bool.false_eq_true, if_false]
    rw [runLines_body pats r body
      { s1 with
        inHeaders := false,
        newMessageLines := s1.newMessageLines ++ replyToInjection s1 ++ [""] }
      rfl]
    unfold bodyVeto
    cases hveto : body.any (lineRejected pats) with
    | true => simp [hveto]
    | false => simp [hveto, List.append_assoc]

lemma isEmpty_false_of_not_blank (v : String) (h : jsTrimEmpty v = false) :
    v.isEmpty = false := by
  cases hv : v.isEmpty
  · rfl
  · rw [String.isEmpty_iff] at hv
    rw [hv] at h
    exact absurd h (by decide)

lemma firstReplyToEntry_kept (hs : List (String × String)) (k v : String)
    (h : firstReplyToEntry hs = some (k, v)) :
    hs.any keptHeader = true ∧ jsTrimEmpty v = false := by
  have hmem := List.mem_of_find?_eq_some h
  have hp := List.find?_some h
  rw [Bool.and_eq_true] at hp
  have hlow : jsToLower k = "reply-to" := by simpa using hp.1
  have hnb : jsTrimEmpty v = false := by simpa using hp.2
  refine ⟨?_, hnb⟩
  rw [List.any_eq_true]
  refine ⟨(k, v), hmem, ?_⟩
  unfold keptHeader
  simp [rt_not_excluded k hlow, excludeIfEmptyHeader, hlow, hnb]

lemma firstFromEntry_kept (hs : List (String × String)) (k v : String)
    (h : firstFromEntry hs = some (k, v)) : hs.any keptHeader = true := by
  have hmem := List.mem_of_find?_eq_some h
  have hp := List.find?_some h
  have hlow : jsToLower k = "from" := by simpa using hp
  rw [List.any_eq_true]
  refine ⟨(k, v), hmem, ?_⟩
  unfold keptHeader
  simp [from_not_excluded k hlow, from_not_excludeIfEmpty k hlow]

/-- C2: the Reply-To invariant of the rewrite pipeline. If the input
headers contain a Reply-To with a non-blank value, the rewritten header
block keeps exactly that header unchanged and injects nothing; if not and a
From value was captured, exactly one `Reply-To: <original From value>` is
appended at the end of the header block (after the whole header list was
scanned, before the separator); if neither is present, nothing is appended
and processing still proceeds (for a message that parses at all, i.e. with
at least one kept header). -/
theorem c2_reply_to_invariant (hs : List (String × String))
    (body : List String) (r : String) (pats : List StrOrPat)
    (hwf : hs.all wfHeaderKV = true) (hb : body.all wfBodyLine = true)
    (hr : wfValStr r = true) :
    (∀ k v, firstReplyToEntry hs = some (k, v) →
      ∃ E, processMessage (mkMessage hs body) r pats
          = (if bodyVeto pats body then .ok none
             else .ok (some (joinCRLF (E ++ [""] ++ body)))) ∧
        hline (k, v) ∈ E ∧ E.filter isRTLine = [hline (k, v)]) ∧
    (firstReplyToEntry hs = none → ∀ k v, firstFromEntry hs = some (k, v) →
      v ≠ "" →
      ∃ E, processMessage (mkMessage hs body) r pats
          = (if bodyVeto pats body then .ok none
             else .ok (some (joinCRLF (E ++ ["Reply-To: " ++ v] ++ [""]
               ++ body)))) ∧
        E.filter isRTLine = []) ∧
    (firstReplyToEntry hs = none →
      ((firstFromEntry hs).map (fun kv => kv.2)).getD "" = "" →
      hs.any keptHeader = true →
      ∃ E, processMessage (mkMessage hs body) r pats
          = (if bodyVeto pats body then .ok none
             else .ok (some (joinCRLF (E ++ [""] ++ body)))) ∧
        E.filter isRTLine = []) := by
  obtain ⟨s1, hfold, hpm⟩ := processMessage_mk hs body r pats hwf hb
  have hrt := foldHeaders_rt_absent r hr hs initState s1 hwf rfl hfold
  refine ⟨?_, ?_, ?_⟩
  · intro k v hfind
    obtain ⟨hkept, hnb⟩ := firstReplyToEntry_kept hs k v hfind
    have hemp : s1.headers.isEmpty = false := by
      rw [foldHeaders_isEmpty r hs initState s1 hwf hfold]
      simp [initState, hkept]
    have hga : getAssoc s1.headers "reply-to" = some v := by
      rw [hrt.2, hfind]
      rfl
    have hinj : replyToInjection s1 = [] := by
      unfold replyToInjection
      rw [hga]
      simp [isEmpty_false_of_not_blank v hnb]
    have hfil : s1.newMessageLines.filter isRTLine = [hline (k, v)] := by
      rw [hrt.1, hfind]
      rfl
    refine ⟨s1.newMessageLines, ?_, ?_, hfil⟩
    · rw [hpm, hemp]
      simp [hinj]
    · exact List.mem_of_mem_filter (by rw [hfil]; exact List.mem_cons_self _ _)
  · intro hnone k v hffind hvne
    have hkept := firstFromEntry_kept hs k v hffind
    have hemp : s1.headers.isEmpty = false := by
      rw [foldHeaders_isEmpty r hs initState s1 hwf hfold]
      simp [initState, hkept]
    have hga : getAssoc s1.headers "reply-to" = none := by
      rw [hrt.2, hnone]
      rfl
    have hff := (foldHeaders_from r hs initState s1 hwf hfold).2
    simp only [show (getAssoc initState.headers "from").isSome = false from rfl,
      Bool.false_eq_true, if_false] at hff
    unfold firstFromEntry at hffind
    rw [hffind] at hff
    have hof : s1.origFrom = v := hff
    have hinj : replyToInjection s1 = ["Reply-To: " ++ v] := by
      unfold replyToInjection
      rw [hga, hof]
      have hvie : v.isEmpty = false := by
        rw [← Bool.not_eq_true, String.isEmpty_iff]
        exact hvne
      simp [hvie]
      decide
    have hfil : s1.newMessageLines.filter isRTLine = [] := by
      rw [hrt.1, hnone]
      simp [initState]
    refine ⟨s1.newMessageLines, ?_, hfil⟩
    rw [hpm, hemp]
    simp only [Bool.false_eq_true, if_false, hinj]
  · intro hnone hfval hkept
    have hemp : s1.headers.isEmpty = false := by
      rw [foldHeaders_isEmpty r hs initState s1 hwf hfold]
      simp [initState, hkept]
    have hga : getAssoc s1.headers "reply-to" = none := by
      rw [hrt.2, hnone]
      rfl
    have hff := (foldHeaders_from r hs initState s1 hwf hfold).2
    simp only [show (getAssoc initState.headers "from").isSome = false from rfl,
      Bool.false_eq_true, if_false] at hff
    have hof : s1.origFrom = "" := by
      cases hffind : firstFromEntry hs with
      | none =>
        unfold firstFromEntry at hffind
        rw [hffind] at hff
        exact hff
      | some kv =>
        rw [hffind] at hfval
        simp at hfval
        unfold firstFromEntry at hffind
        rw [hffind] at hff
        rw [hff]
        exact hfval
    have hinj : replyToInjection s1 = [] := by
      unfold replyToInjection
      rw [hga, hof]
      simp
    have hfil : s1.newMessageLines.filter isRTLine = [] := by
      rw [hrt.1, hnone]
      simp [initState]
    refine ⟨s1.newMessageLines, ?_, hfil⟩
    rw [hpm, hemp]
    simp [hinj]

/-- Concrete header list for exercising the Reply-To invariant: a From
header followed by a Reply-To header with a non-blank value. -/
def c2Hs : List (String × String) :=
  [("From", "alice@example.com"), ("Reply-To", "bob@example.com")]

theorem c2_witness :
    ∃ E, processMessage (mkMessage c2Hs ["hi"]) "p@example.com" []
        = (if bodyVeto [] ["hi"] then .ok none
           else .ok (some (joinCRLF (E ++ [""] ++ ["hi"])))) ∧
      hline ("Reply-To", "bob@example.com") ∈ E ∧
      E.filter isRTLine = [hline ("Reply-To", "bob@example.com")] :=
  (c2_reply_to_invariant c2Hs ["hi"] "p@example.com" [] (by decide) (by decide)
    (by decide)).1 "Reply-To" "bob@example.com" (by decide)

/-- The spec's wording of the From sanitization: strip all double quotes
from the display text, then replace every angle bracket with the matching
parenthesis. -/
def specStripThenReplace (s : String) : String :=
  String.mk ((s.toList.filter (fun c => c != '"')).map
    (fun c => if c = '<' then '(' else if c = '>' then ')' else c))

lemma filterMap_sanitize (l : List Char) :
    l.filterMap sanitizeChar
      = (l.filter (fun c => c != '"')).map
          (fun c => if c = '<' then '(' else if c = '>' then ')' else c) := by
  induction l with
  | nil => rfl
  | cons a t ih =>
    by_cases h1 : a = '"'
    · subst h1
      simp [List.filterMap_cons, sanitizeChar, ih]
    · by_cases h2 : a = '<'
      · subst h2
        simp [List.filterMap_cons, sanitizeChar, ih]
      · by_cases h3 : a = '>'
        · subst h3
          simp [List.filterMap_cons, sanitizeChar, ih]
        · simp [List.filterMap_cons, sanitizeChar, h1, h2, h3, ih]

/-- C8: the From rewrite sanitizes the original value by stripping every
double quote and replacing angle brackets by parentheses (equal to the
spec's strip-then-replace description), so the sanitized text contains no
raw angle bracket or double quote; and for a message whose headers carry a
From entry, the rewritten header block contains the replacement line
`From-key: "<sanitized original>" <primary recipient>`. -/
theorem c8_from_sanitization (hs : List (String × String))
    (body : List String) (r : String) (pats : List StrOrPat)
    (hwf : hs.all wfHeaderKV = true) (hb : body.all wfBodyLine = true)
    (hr : wfValStr r = true) :
    (∀ v : String, ∀ c ∈ (sanitizeFrom v).toList,
      c ≠ '<' ∧ c ≠ '>' ∧ c ≠ '"') ∧
    (∀ v : String, sanitizeFrom v = specStripThenReplace v) ∧
    (∀ k v, firstFromEntry hs = some (k, v) →
      ∃ E, processMessage (mkMessage hs body) r pats
          = (if bodyVeto pats body then .ok none
             else .ok (some (joinCRLF (E ++ [""] ++ body)))) ∧
        (k ++ ": " ++ fromValue r v) ∈ E) := by
  refine ⟨?_, ?_, ?_⟩
  · intro v c hc
    rw [sanitizeFrom] at hc
    have hc2 : c ∈ List.filterMap sanitizeChar v.toList := hc
    obtain ⟨a, _, ha⟩ := List.mem_filterMap.mp hc2
    by_cases h1 : a = '"'
    · subst h1
      simp [sanitizeChar] at ha
    · by_cases h2 : a = '<'
      · subst h2
        simp [sanitizeChar] at ha
        subst ha
        refine ⟨by decide, by decide, by decide⟩
      · by_cases h3 : a = '>'
        · subst h3
          simp [sanitizeChar] at ha
          subst ha
          refine ⟨by decide, by decide, by decide⟩
        · simp [sanitizeChar, h1, h2, h3] at ha
          subst ha
          exact ⟨h2, h3, h1⟩
  · intro v
    rw [sanitizeFrom, specStripThenReplace, filterMap_sanitize]
  · intro k v hfind
    obtain ⟨s1, hfold, hpm⟩ := processMessage_mk hs body r pats hwf hb
    have hkept := firstFromEntry_kept hs k v hfind
    have hemp : s1.headers.isEmpty = false := by
      rw [foldHeaders_isEmpty r hs initState s1 hwf hfold]
      simp [initState, hkept]
    have hmem := foldHeaders_fromline r hs initState s1 hwf rfl hfold k v hfind
    refine ⟨s1.newMessageLines ++ replyToInjection s1, ?_, ?_⟩
    · rw [hpm, hemp]
      simp only [Bool.false_eq_true, if_false, List.append_assoc]
    · exact List.mem_append_left _ hmem

/-- Concrete header list for the From sanitization scenario of the spec:
a From header whose display text carries quotes and angle brackets. -/
def c8Hs : List (String × String) := [("From", "\"A > B\" <x@y>")]

theorem c8_witness :
    ∃ E, processMessage (mkMessage c8Hs []) "p@example.com" []
        = (if bodyVeto [] [] then .ok none
           else .ok (some (joinCRLF (E ++ [""] ++ [])))) ∧
      ("From" ++ ": " ++ fromValue "p@example.com" "\"A > B\" <x@y>") ∈ E :=
  (c8_from_sanitization c8Hs [] "p@example.com" [] (by decide) (by decide)
    (by decide)).2.2 "From" "\"A > B\" <x@y>" (by decide)

/-- C5: the global body filter. Each body line is tested against the reject
entries with the per-entry test (`includes` for a string, `match` for a
pattern); an entry hit vetoes independently of the entries after it; a
message whose body contains a rejected line (after lines that pass) is
vetoed to `undefined` whatever the remaining lines are, so they are never
evaluated; on a veto the handler's disposition is CONTINUE and the
transport is never invoked; and with no hit the full body passes through
unchanged at the tail of the rewritten message. -/
theorem c5_body_filter (hs : List (String × String)) (r : String)
    (pats : List StrOrPat) (hwf : hs.all wfHeaderKV = true) :
    (∀ line ps, lineRejected ps line = ps.any (subjectHit line)) ∧
    (∀ (ps1 : List StrOrPat) (p : StrOrPat) (ps2 : List StrOrPat)
      (line : String), subjectHit line p = true →
      lineRejected (ps1 ++ p :: ps2) line = true) ∧
    (∀ (pre : List String) (bad : String) (post : List String),
      (pre ++ bad :: post).all wfBodyLine = true →
      (∀ l ∈ pre, lineRejected pats l = false) →
      lineRejected pats bad = true →
      hs.any keptHeader = true →
      processMessage (mkMessage hs (pre ++ bad :: post)) r pats = .ok none) ∧
    (∀ body : List String, body.all wfBodyLine = true →
      bodyVeto pats body = false →
      hs.any keptHeader = true →
      ∃ E, processMessage (mkMessage hs body) r pats
        = .ok (some (joinCRLF (E ++ [""] ++ body)))) ∧
    (∀ (rules : List Rule) (grules : GlobalRules) (ev : SESEventM)
      (rec : SESRecordM) (mail : SESMailM) (recips : List String)
      (msg : String) (fwdErr : Option String),
      validateSesEvent ev = .ok rec →
      parseRecord rec = .ok (mail, recips) →
      (processRules rules grules recips (mail.subject.getD "")).1 ≠ [] →
      processMessage msg (processRules rules grules recips
        (mail.subject.getD "")).2 (grules.rejectIfBodyLineContains.getD [])
        = .ok none →
      handler rules grules ev (.ok msg) fwdErr
        = .ok ⟨.CONTINUE, false, false⟩) := by
  refine ⟨?_, ?_, ?_, ?_, ?_⟩
  · intro line ps
    rfl
  · intro ps1 p ps2 line hp
    unfold lineRejected
    rw [List.any_eq_true]
    exact ⟨p, by simp, hp⟩
  · intro pre bad post hwfb hpre hbad hkept
    obtain ⟨s1, hfold, hpm⟩ :=
      processMessage_mk hs (pre ++ bad :: post) r pats hwf hwfb
    have hemp : s1.headers.isEmpty = false := by
      rw [foldHeaders_isEmpty r hs initState s1 hwf hfold]
      simp [initState, hkept]
    have hveto : bodyVeto pats (pre ++ bad :: post) = true := by
      unfold bodyVeto
      rw [List.any_eq_true]
      exact ⟨bad, by simp, hbad⟩
    rw [hpm, hemp, hveto]
    simp
  · intro body hb hnv hkept
    obtain ⟨s1, hfold, hpm⟩ := processMessage_mk hs body r pats hwf hb
    have hemp : s1.headers.isEmpty = false := by
      rw [foldHeaders_isEmpty r hs initState s1 hwf hfold]
      simp [initState, hkept]
    refine ⟨s1.newMessageLines ++ replyToInjection s1, ?_⟩
    rw [hpm, hemp, hnv]
    simp [List.append_assoc]
  · intro rules grules ev rec mail recips msg fwdErr hval hparse hne hveto
    have hne' : (processRules rules grules recips
        (mail.subject.getD "")).1.isEmpty = false := by
      rw [Bool.eq_false_iff]
      intro h
      exact hne (List.isEmpty_iff.mp h)
    have htb : tryBody rules grules (.ok msg) fwdErr rec
        = .ok (.CONTINUE, false) := by
      unfold tryBody
      rw [hparse]
      simp [hne', hveto]
    unfold handler
    rw [hval]
    simp [htb]

/-- Concrete header list for the body-filter scenario. -/
def c5Hs : List (String × String) := [("Subject", "hello")]

theorem c5_witness :
    processMessage
      (mkMessage c5Hs (["ok line"] ++ "buy SPAM now" :: ["never scanned"]))
      "p@example.com" [.str "SPAM"] = .ok none :=
  (c5_body_filter c5Hs "p@example.com" [.str "SPAM"] (by decide)).2.2.1
    ["ok line"] "buy SPAM now" ["never scanned"] (by decide) (by decide)
    (by decide) (by decide)

/-- C4 (amended): once envelope validation and record parsing succeed and
rule resolution yields a non-empty target set, the handler always returns
normally (every error of the `try` block is caught, reported and
swallowed), and its disposition is STOP_RULE in every case — fetch failure,
header-parse failure, forwarding failure or success — except one: a body
veto (`processMessage` returning `undefined`), which yields CONTINUE. -/
theorem c4_disposition (rules : List Rule) (grules : GlobalRules)
    (ev : SESEventM) (rec : SESRecordM) (mail : SESMailM)
    (recips : List String) (fetchRes : Except String String)
    (fwdErr : Option String)
    (hval : validateSesEvent ev = .ok rec)
    (hparse : parseRecord rec = .ok (mail, recips))
    (hne : (processRules rules grules recips (mail.subject.getD "")).1 ≠ []) :
    ∃ out, handler rules grules ev fetchRes fwdErr = .ok out ∧
      out.disposition =
        (match fetchRes with
         | .error _ => .STOP_RULE
         | .ok m =>
           match processMessage m
               (processRules rules grules recips (mail.subject.getD "")).2
               (grules.rejectIfBodyLineContains.getD []) with
           | .ok none => .CONTINUE
           | _ => .STOP_RULE) := by
  have hne' : (processRules rules grules recips
      (mail.subject.getD "")).1.isEmpty = false := by
    rw [Bool.eq_false_iff]
    intro h
    exact hne (List.isEmpty_iff.mp h)
  cases fetchRes with
  | error e =>
    have htb : tryBody rules grules (.error e) fwdErr rec
        = .error (e, false) := by
      unfold tryBody
      rw [hparse]
      simp [hne']
    refine ⟨⟨.STOP_RULE, false, true⟩, ?_, rfl⟩
    unfold handler
    rw [hval]
    simp [htb]
  | ok m =>
    cases hpmr : processMessage m
        (processRules rules grules recips (mail.subject.getD "")).2
        (grules.rejectIfBodyLineContains.getD []) with
    | error e2 =>
      have htb : tryBody rules grules (.ok m) fwdErr rec
          = .error (e2, false) := by
        unfold tryBody
        rw [hparse]
        simp [hne', hpmr]
      refine ⟨⟨.STOP_RULE, false, true⟩, ?_, by simp [hpmr]⟩
      unfold handler
      rw [hval]
      simp [htb]
    | ok o =>
      cases o with
      | none =>
        have htb : tryBody rules grules (.ok m) fwdErr rec
            = .ok (.CONTINUE, false) := by
          unfold tryBody
          rw [hparse]
          simp [hne', hpmr]
        refine ⟨⟨.CONTINUE, false, false⟩, ?_, by simp [hpmr]⟩
        unfold handler
        rw [hval]
        simp [htb]
      | some msg2 =>
        cases fwdErr with
        | none =>
          have htb : tryBody rules grules (.ok m) none rec
              = .ok (.STOP_RULE, true) := by
            unfold tryBody
            rw [hparse]
            simp [hne', hpmr]
          refine ⟨⟨.STOP_RULE, true, false⟩, ?_, by simp [hpmr]⟩
          unfold handler
          rw [hval]
          simp [htb]
        | some e3 =>
          have htb : tryBody rules grules (.ok m) (some e3) rec
              = .error (e3, true) := by
            unfold tryBody
            rw [hparse]
            simp [hne', hpmr]
          refine ⟨⟨.STOP_RULE, true, true⟩, ?_, by simp [hpmr]⟩
          unfold handler
          rw [hval]
          simp [htb]

/-- Concrete mail, record, event and rule for the handler disposition
scenarios. -/
def c4Mail : SESMailM := { messageId := "mid-1", subject := none }

def c4Record : SESRecordM :=
  { eventSource := "aws:ses", eventVersion := "1.0", mail := c4Mail,
    recipients := some ["user@example.com"] }

def c4Event : SESEventM := { records := [c4Record] }

def c4Rule : Rule :=
  { matchExact := some "user@example.com", recipients := ["fwd@target.com"] }

def c4Grules : GlobalRules :=
  { rejectIfBodyLineContains := some [.str "SPAM"] }

theorem c4_witness :
    ∃ out, handler [c4Rule] {} c4Event (.error "fetch failed") none
        = .ok out ∧
      out.disposition =
        (match (.error "fetch failed" : Except String String) with
         | .error _ => .STOP_RULE
         | .ok m =>
           match processMessage m
               (processRules [c4Rule] {} ["user@example.com"]
                 (c4Mail.subject.getD "")).2
               (GlobalRules.rejectIfBodyLineContains {} |>.getD []) with
           | .ok none => .CONTINUE
           | _ => .STOP_RULE) :=
  c4_disposition [c4Rule] {} c4Event c4Record c4Mail ["user@example.com"]
    (.error "fetch failed") none rfl rfl (by decide)

theorem c4_counterexample :
    validateSesEvent c4Event = .ok c4Record ∧
    parseRecord c4Record = .ok (c4Mail, ["user@example.com"]) ∧
    (processRules [c4Rule] c4Grules ["user@example.com"]
      (c4Mail.subject.getD "")).1 ≠ [] ∧
    handler [c4Rule] c4Grules c4Event (.ok "Subject: s\r\n\r\nSPAM") none
      = .ok ⟨.CONTINUE, false, false⟩ ∧
    Disposition.CONTINUE ≠ Disposition.STOP_RULE := by
  refine ⟨rfl, rfl, by decide, ?_, by decide⟩
  rfl

/-- The corrected malformed-message condition, phrased over the CRLF-split
lines scanned in header mode with the running buffer and a flag recording
whether any header has been stored: the parse fails exactly when a
non-continuation line forces a flush of a non-empty buffer that does not
match the header form, or when the blank separator is reached while no
header has been stored. The end of the input never fails (a trailing
buffer is dropped silently), and once the separator is passed body lines
never fail. -/
def specParseFails : List String → Bool → List String → Bool
  | _, _, [] => false
  | buf, stored, line :: rest =>
    if startsWithSpace line then specParseFails (buf ++ [line]) stored rest
    else if buf.isEmpty then
      if line == "" then !stored
      else specParseFails [line] stored rest
    else
      match headerMatch (joinSpace buf) with
      | none => true
      | some kv =>
        if line == "" then !(stored || keptHeader kv)
        else specParseFails [line] (stored || keptHeader kv) rest

lemma flushResult_isEmpty (r : String) (st : PMState) (kv : String × String) :
    (flushResult r st kv).headers.isEmpty
      = (st.headers.isEmpty && !keptHeader kv) := by
  unfold flushResult keptHeader
  by_cases h1 : excludedHeader kv.1 = true
  · simp [h1]
  · by_cases h2 : (excludeIfEmptyHeader kv.1 && jsTrimEmpty kv.2) = true
    · simp [h1, h2]
    · by_cases h3 : ((getAssoc st.headers (jsToLower kv.1)).isSome &&
          !allowDuplicateHeader kv.1) = true
      · have h3b := h3
        rw [Bool.and_eq_true] at h3b
        have hne := getAssoc_isSome_nonempty st.headers (jsToLower kv.1) h3b.1
        simp [h1, h2, h3, hne]
      · by_cases h4 : (jsToLower kv.1 == "from") = true
        · simp [h1, h2, h3, h4, setAssoc_isEmpty]
        · simp [h1, h2, h3, h4, setAssoc_isEmpty]

lemma runLines_cons_ok (pats : List StrOrPat) (r line : String)
    (rest : List String) (st X : PMState)
    (h : processLine pats r st line = .ok (some X)) :
    runLines pats r (line :: rest) st = runLines pats r rest X := by
  rw [show runLines pats r (line :: rest) st
      = (match processLine pats r st line with
         | Except.error e => Except.error e
         | Except.ok none => Except.ok none
         | Except.ok (some s1) => runLines pats r rest s1) from rfl, h]

lemma runLines_cons_err (pats : List StrOrPat) (r line : String)
    (rest : List String) (st : PMState) (e : String)
    (h : processLine pats r st line = .error e) :
    runLines pats r (line :: rest) st = .error e := by
  rw [show runLines pats r (line :: rest) st
      = (match processLine pats r st line with
         | Except.error e => Except.error e
         | Except.ok none => Except.ok none
         | Except.ok (some s1) => runLines pats r rest s1) from rfl, h]

lemma runLines_body_nerr (pats : List StrOrPat) (r : String)
    (rest : List String) (X : PMState) (hX : X.inHeaders = false) :
    ¬∃ e, runLines pats r rest X = .error e := by
  rw [runLines_body pats r rest X hX]
  rintro ⟨e, he⟩
  by_cases h : rest.any (lineRejected pats) = true
  · rw [if_pos h] at he
    exact Except.noConfusion he
  · rw [if_neg h] at he
    exact Except.noConfusion he

lemma runLines_error_iff (pats : List StrOrPat) (r : String) :
    ∀ (lines : List String) (st : PMState), st.inHeaders = true →
      ((∃ e, runLines pats r lines st = .error e)
        ↔ specParseFails st.currentHeader (!st.headers.isEmpty) lines = true)
  | [], st => by
    intro _
    rw [show runLines pats r [] st = .ok (some st) from rfl]
    simp [specParseFails]
  | line :: rest, st => by
    intro hin
    by_cases hsp : startsWithSpace line = true
    · have hpl : processLine pats r st line
          = .ok (some { st with currentHeader := st.currentHeader ++ [line] }) := by
        unfold processLine
        rw [if_pos hin, if_pos hsp]
      rw [runLines_cons_ok pats r line rest st _ hpl]
      unfold specParseFails
      rw [if_pos hsp]
      exact runLines_error_iff pats r rest _ hin
    · have hspf : startsWithSpace line = false := Bool.eq_false_iff.mpr hsp
      by_cases hbe : st.currentHeader.isEmpty = true
      · have hbel : st.currentHeader = [] := List.isEmpty_iff.mp hbe
        have hflush : flushHeader r st = .ok st := flushHeader_empty r st hbel
        by_cases hbl : line = ""
        · subst hbl
          by_cases hhe : st.headers.isEmpty = true
          · have hpl : processLine pats r st ""
                = .error "Message had no headers (started with blank line)" := by
              unfold processLine
              rw [if_pos hin, if_neg (by simp [hspf]), hflush]
              simp [hhe]
            rw [runLines_cons_err pats r "" rest st _ hpl]
            unfold specParseFails
            rw [if_neg (by simp [hspf]), if_pos hbe,
              if_pos (show ("" == "") = true from rfl)]
            exact iff_of_true ⟨_, rfl⟩ (by simp [hhe])
          · have hhef : st.headers.isEmpty = false := Bool.eq_false_iff.mpr hhe
            have hpl : processLine pats r st ""
                = .ok (some { st with
                    inHeaders := false,
                    newMessageLines := st.newMessageLines
                        ++ replyToInjection st ++ [""] }) := by
              unfold processLine
              rw [if_pos hin, if_neg (by simp [hspf]), hflush]
              simp [hhef]
            rw [runLines_cons_ok pats r "" rest st _ hpl]
            unfold specParseFails
            rw [if_neg (by simp [hspf]), if_pos hbe,
              if_pos (show ("" == "") = true from rfl)]
            exact iff_of_false (runLines_body_nerr pats r rest _ rfl)
              (by simp [hhef])
        · have hble : (line == "") = false := by
            rw [← Bool.not_eq_true, beq_iff_eq]
            exact hbl
          have hpl : processLine pats r st line
              = .ok (some { st with currentHeader := [line] }) := by
            unfold processLine
            rw [if_pos hin, if_neg (by simp [hspf]), hflush]
            simp [hble]
          rw [runLines_cons_ok pats r line rest st _ hpl]
          unfold specParseFails
          rw [if_neg (by simp [hspf]), if_pos hbe, if_neg (by simp [hble])]
          exact runLines_error_iff pats r rest _ hin
      · have hbne : st.currentHeader.isEmpty = false := Bool.eq_false_iff.mpr hbe
        cases hm : headerMatch (joinSpace st.currentHeader) with
        | none =>
          have hflush := flushHeader_none r st hbne hm
          have hpl : processLine pats r st line = .error
              ("Failed to parse message header:\n"
                ++ joinSpace st.currentHeader) := by
            unfold processLine
            rw [if_pos hin, if_neg (by simp [hspf]), hflush]
          rw [runLines_cons_err pats r line rest st _ hpl]
          unfold specParseFails
          rw [if_neg (by simp [hspf]), if_neg (by simp [hbne]), hm]
          exact iff_of_true ⟨_, rfl⟩ rfl
        | some kv =>
          have hflush := flushHeader_some r st kv hbne hm
          have hfe := flushResult_isEmpty r st kv
          by_cases hbl : line = ""
          · subst hbl
            by_cases hh2 : (flushResult r st kv).headers.isEmpty = true
            · have hcomb : (st.headers.isEmpty && !keptHeader kv) = true := by
                rw [← hfe]
                exact hh2
              rw [Bool.and_eq_true] at hcomb
              have hk : keptHeader kv = false := by simpa using hcomb.2
              have hpl : processLine pats r st ""
                  = .error "Message had no headers (started with blank line)" := by
                unfold processLine
                rw [if_pos hin, if_neg (by simp [hspf]), hflush]
                simp [hh2]
              rw [runLines_cons_err pats r "" rest st _ hpl]
              unfold specParseFails
              rw [if_neg (by simp [hspf]), if_neg (by simp [hbne]), hm]
              exact iff_of_true ⟨_, rfl⟩ (by simp [hcomb.1, hk])
            · have hh2f : (flushResult r st kv).headers.isEmpty = false :=
                Bool.eq_false_iff.mpr hh2
              have hpl : processLine pats r st ""
                  = .ok (some { flushResult r st kv with
                      inHeaders := false,
                      newMessageLines := (flushResult r st kv).newMessageLines
                          ++ replyToInjection (flushResult r st kv)
                          ++ [""] }) := by
                unfold processLine
                rw [if_pos hin, if_neg (by simp [hspf]), hflush]
                simp [hh2f]
              rw [runLines_cons_ok pats r "" rest st _ hpl]
              unfold specParseFails
              rw [if_neg (by simp [hspf]), if_neg (by simp [hbne]), hm]
              refine iff_of_false (runLines_body_nerr pats r rest _ rfl) ?_
              intro hc
              have hc2 : (!((!st.headers.isEmpty) || keptHeader kv)) = true := hc
              rw [Bool.not_or, Bool.not_not, ← hfe] at hc2
              exact hh2 hc2
          · have hble : (line == "") = false := by
              rw [← Bool.not_eq_true, beq_iff_eq]
              exact hbl
            have hpl : processLine pats r st line
                = .ok (some { flushResult r st kv with
                    currentHeader := [line] }) := by
              unfold processLine
              rw [if_pos hin, if_neg (by simp [hspf]), hflush]
              simp [hble]
            rw [runLines_cons_ok pats r line rest st _ hpl]
            have hbel2 : st.currentHeader ≠ [] := fun h => by
              simp [h] at hbne
            have hrhs : specParseFails st.currentHeader (!st.headers.isEmpty)
                (line :: rest)
                = specParseFails [line]
                    ((!st.headers.isEmpty) || keptHeader kv) rest := by
              conv_lhs => unfold specParseFails
              simp [hspf, hbne, hbel2, hm, hbl]
            rw [hrhs]
            have hinX : ({ flushResult r st kv with currentHeader := [line] }
                : PMState).inHeaders = true := by
              have h1 : ({ flushResult r st kv with currentHeader := [line] }
                  : PMState).inHeaders = (flushResult r st kv).inHeaders := rfl
              rw [h1, flushResult_inHeaders]
              exact hin
            have hst : ((!st.headers.isEmpty) || keptHeader kv)
                = (!({ flushResult r st kv with currentHeader := [line] }
                    : PMState).headers.isEmpty) := by
              have h1 : ({ flushResult r st kv with currentHeader := [line] }
                  : PMState).headers = (flushResult r st kv).headers := rfl
              rw [h1, flushResult_isEmpty, Bool.not_and, Bool.not_not]
            rw [hst]
            exact runLines_error_iff pats r rest _ hinX

/-- C3 (amended): `processMessage` fails with a malformed-message error
exactly when `specParseFails` holds of the CRLF-split input: a
non-continuation line forces the flush of a buffer that does not match the
header form `token ':' SP? value` (a buffer begun by leading continuation
lines also fails this way, but only when a later non-continuation line
forces the flush), or the blank separator line is reached while zero
headers have been stored. When the separator is never found the parse
never fails — zero headers before an unreached separator proceed with an
empty header set — and the source's `Message started with space` guard is
unreachable, because an array is always truthy. -/
theorem c3_parse_failure_iff (msg r : String) (pats : List StrOrPat) :
    (∃ e, processMessage msg r pats = .error e)
      ↔ specParseFails [] false (splitCRLF msg) = true := by
  have hiff : (∃ e, processMessage msg r pats = .error e)
      ↔ (∃ e, runLines pats r (splitCRLF msg) initState = .error e) := by
    unfold processMessage
    cases hrl : runLines pats r (splitCRLF msg) initState with
    | error e => simp
    | ok o =>
      cases o with
      | none => simp
      | some s => simp
  rw [hiff]
  exact runLines_error_iff pats r (splitCRLF msg) initState rfl

/-- The original C3 is refuted: a message whose header/body separator is
never found parses successfully even with zero accumulated headers (the
trailing buffer is dropped and an empty message is produced), and a
message consisting only of a leading continuation line also parses
successfully instead of failing. -/
theorem c3_counterexample :
    processMessage "X-Report: found" "p@example.com" [] = .ok (some "") ∧
    processMessage " leading continuation only" "p@example.com" []
      = .ok (some "") ∧
    ¬∃ e, processMessage "X-Report: found" "p@example.com" [] = .error e := by
  refine ⟨rfl, rfl, ?_⟩
  rintro ⟨e, he⟩
  rw [show processMessage "X-Report: found" "p@example.com" []
      = .ok (some "") from rfl] at he
  exact Except.noConfusion he
